import Mathlib

set_option linter.unusedVariables false

/-!
Shallow embedding of `deeptrio/pileup_image.py` (DeepTrio pileup-image assembly).

Conventions of the embedding:
* numpy uint8 tensors are modelled structurally: a pixel row is a
  `List (List Nat)` (width x channels) and a pileup image is a list of such
  rows (height x width x channels);
* fallible Python code (raising `ValueError`, `IndexError`, `KeyError`,
  `AttributeError`) is modelled with `Except String`;
* the external row encoder, reference reader and read readers are opaque
  function parameters, mirroring their role as external collaborators;
* `np.random.RandomState(seed)` and `utils.reservoir_sample` live outside the
  translated source file; they are modelled from the spec (see their doc
  comments).  The process-wide numpy random state is made explicit as a
  `np_random_global` argument which the translated code never consults,
  mirroring the fact that the Python code never touches `np.random` globals.
-/

/-- One encoded pixel row of a pileup image: `width` pixels, each a list of
channel values. -/
abbrev Row := List (List Nat)

/-- A pileup image: a stack of encoded rows (height x width x channels). -/
abbrev Image := List Row

/-- The slice of a `third_party.nucleus.protos.Read` visible to this layer:
its alignment position and the optional integer value of the `HP` (haplotype)
info tag. -/
structure Read where
  position : Int
  hpTag : Option Int
deriving DecidableEq

/-- The slice of a `third_party.nucleus.protos.Variant` used by this layer. -/
structure Variant where
  reference_name : String
  start : Int
  «end» : Int
  reference_bases : String
  alternate_bases : List String
deriving DecidableEq

/-- A `DeepVariantCall` proto: wraps the candidate variant. -/
structure DeepVariantCall where
  variant : Variant
deriving DecidableEq

/-- `PileupImageOptions.MultiAllelicMode` proto enum. -/
inductive MultiAllelicMode where
  | UNSPECIFIED
  | NO_HET_ALT_IMAGES
  | ADD_HET_ALT_IMAGES
deriving DecidableEq

/-- `PileupImageOptions.SequencingType` proto enum (only membership in `TRIO`
matters to the translated code). -/
inductive SequencingType where
  | UNSPECIFIED_SEQ_TYPE
  | TRIO
deriving DecidableEq

/-- Enum specifying whether a sample is from child or parent
(`pileup_image.SampleType`). -/
inductive SampleType where
  | CHILD
  | PARENT
deriving DecidableEq

/-- The configuration record (`deepvariant_pb2.PileupImageOptions`), restricted
to the fields the translated code reads. -/
structure PileupImageOptions where
  width : Nat
  height : Nat
  height_child : Nat
  height_parent : Nat
  reference_band_height : Nat
  num_channels : Nat
  multi_allelic_mode : MultiAllelicMode
  sequencing_type : SequencingType
  read_overlap_buffer_bp : Int
  random_seed : Nat
  sort_by_haplotypes : Bool
  alt_aligned_pileup : String
deriving DecidableEq

/-- Modelled from the spec: the state of a deterministic pseudo-random
generator standing in for `np.random.RandomState` (numpy is outside the
translated source).  Only determinism from the seed matters to the claims, so
the state is the seed plus a draw counter. -/
structure RandomState where
  seed : Nat
  counter : Nat
deriving DecidableEq

/-- Modelled from the spec: `np.random.RandomState(seed)` constructs a fresh
generator deterministically from the seed. -/
def npRandomState (seed : Nat) : RandomState :=
  ⟨seed, 0⟩

/-- Modelled from the spec: one bounded draw `randint(0, hi)` of the generator,
a deterministic mixing function of seed and draw counter reduced modulo `hi`
(any fixed deterministic stream is a faithful stand-in for the Mersenne
twister as far as the claims go). -/
def randint (r : RandomState) (hi : Nat) : Nat × RandomState :=
  (((r.seed + 1103515245 * r.counter + 12345) % 2147483648) % hi, ⟨r.seed, r.counter + 1⟩)

/-- One step of the reservoir sampler: the accumulator is
(current samples, number of items seen, generator state). -/
def reservoir_step (k : Nat) (st : List α × Nat × RandomState) (item : α) :
    List α × Nat × RandomState :=
  let samples := st.1
  let i := st.2.1
  let r := st.2.2
  if samples.length < k then (samples ++ [item], i + 1, r)
  else
    let jr := randint r (i + 1)
    (if jr.1 < k then samples.set jr.1 item else samples, i + 1, jr.2)

/-- Modelled from the spec: `third_party.nucleus.util.utils.reservoir_sample`
(repository code not under `src/`): bounded-memory single-pass uniform
sampling of up to `k` items.  The first `k` items fill the reservoir; each
later item, the `i`-th seen (0-based), replaces slot `j = randint(0, i + 1)`
exactly when `j < k`. -/
def reservoir_sample (items : List α) (k : Nat) (random : RandomState) :
    List α × RandomState :=
  let acc := items.foldl (reservoir_step k) ([], 0, random)
  (acc.1, acc.2.2)

/-- Insert into a sorted list, after every element strictly below `x`; the
building block of the stable sort. -/
def insertSorted (lt : α → α → Bool) (x : α) : List α → List α
  | [] => [x]
  | y :: ys => if lt y x then y :: insertSorted lt x ys else x :: y :: ys

/-- Stable sort modelling Python's `sorted` with a strict comparison `lt`:
a stable sort with respect to a total preorder computes a unique function, so
insertion sort is extensionally Python's timsort. -/
def pySorted (lt : α → α → Bool) : List α → List α
  | [] => []
  | x :: xs => insertSorted lt x (pySorted lt xs)

/-- Strict lexicographic comparison of code-point sequences, structurally
recursive so that it evaluates by kernel reduction. -/
def charListLt : List Char → List Char → Bool
  | _, [] => false
  | [], _ :: _ => true
  | a :: as, b :: bs =>
    if a.toNat < b.toNat then true
    else if b.toNat < a.toNat then false
    else charListLt as bs

/-- Strict lexicographic comparison of Python strings (code-point order, as in
Python `<` on `str`). -/
def strLt (a b : String) : Bool :=
  charListLt a.data b.data

/-- Strict lexicographic comparison of key tuples as Python compares
`(haplotype, position)` tuples. -/
def pairLt (a b : Int × Int) : Bool :=
  decide (a.1 < b.1) || (decide (a.1 = b.1) && decide (a.2 < b.2))

/-- The sort key used on generated rows: Python
`key=lambda x: (x[0], x[1])` over `(haplotype, position, row)` triples. -/
def rowKeyLt (a b : Int × Int × Row) : Bool :=
  pairLt (a.1, a.2.1) (b.1, b.2.1)

/-- `itertools.combinations(l, 2)`, in emission order. -/
def combinations2 : List α → List (α × α)
  | [] => []
  | x :: xs => xs.map (fun y => (x, y)) ++ combinations2 xs

/-- `_compute_half_width`: `int((width - 1) / 2)`. -/
def _compute_half_width (width : Nat) : Nat :=
  (width - 1) / 2

/-- Python single-character string indexing `s[i]`, total with a junk default;
faithful whenever `i` is in range, which the theorems ensure. -/
def pyCharAt (s : String) (i : Nat) : Char :=
  s.data.getD i ' '

/-- A genomic range as built by `ranges.make_range`. -/
structure GenomicRange where
  reference_name : String
  start : Int
  «end» : Int
deriving DecidableEq

/-- `ranges.make_range`. -/
def make_range (reference_name : String) (start e : Int) : GenomicRange :=
  ⟨reference_name, start, e⟩

/-- An external SAM reader, reduced to its `query` operation. -/
abbrev SamReader := GenomicRange → List Read

/-- The external reference reader: `is_valid` plus `query`. -/
structure RefReader where
  is_valid : GenomicRange → Bool
  query : GenomicRange → String

/-- `PileupImageCreator`: configuration, the native row encoder (opaque
functions `encode_reference` / `encode_read`), and the readers.  The two
parent readers default to `None` in the source constructor, hence `Option`. -/
structure PileupImageCreator where
  options : PileupImageOptions
  encode_reference : String → Row
  encode_read : DeepVariantCall → String → Read → Int → List String → Option Row
  ref_reader : RefReader
  sam_reader : SamReader
  sam_reader_parent1 : Option SamReader
  sam_reader_parent2 : Option SamReader

/-- The `half_width` property of `PileupImageCreator`. -/
def PileupImageCreator.half_width (pic : PileupImageCreator) : Nat :=
  _compute_half_width pic.options.width

/-- `PileupImageCreator.get_reads`: reader selection by the `parent` argument
(`None` for child, `1`, `2` for the parents, anything else a `ValueError`),
followed by a buffered positional query.  A selected parent reader that was
never supplied is Python `None`, whose `query` attribute access raises. -/
def get_reads (pic : PileupImageCreator) (variant : Variant)
    (sam_reader : Option SamReader) (parent : Option Int) :
    Except String (List Read) :=
  let chosen : Except String SamReader :=
    match sam_reader with
    | some r => .ok r
    | none =>
      match parent with
      | none => .ok pic.sam_reader
      | some pv =>
        if pv = 1 then
          match pic.sam_reader_parent1 with
          | some r => .ok r
          | none => .error ("AttributeError: NoneType object has no attribute query")
        else if pv = 2 then
          match pic.sam_reader_parent2 with
          | some r => .ok r
          | none => .error ("AttributeError: NoneType object has no attribute query")
        else .error ("parent must be None for child, 1, or 2.")
  match chosen with
  | .error e => .error e
  | .ok reader =>
    let query_start := variant.start - pic.options.read_overlap_buffer_bp
    let query_end := variant.«end» + pic.options.read_overlap_buffer_bp
    .ok (reader (make_range variant.reference_name query_start query_end))

/-- `PileupImageCreator.get_reference_bases`: a `width`-column window centred
so the variant start sits at `half_width`; `None` when the window is off the
contig. -/
def get_reference_bases (pic : PileupImageCreator) (variant : Variant) :
    Option String :=
  let start := variant.start - (_compute_half_width pic.options.width : Int)
  let e := start + (pic.options.width : Int)
  let region := make_range variant.reference_name start e
  if pic.ref_reader.is_valid region then some (pic.ref_reader.query region) else none

/-- `PileupImageCreator._alt_allele_combinations`: the allele combination
enumerator, collected into the list a caller iterating the generator sees. -/
def _alt_allele_combinations (opts : PileupImageOptions) (variant : Variant) :
    Except String (List (List String)) :=
  let ref := variant.reference_bases
  let alts := variant.alternate_bases
  match opts.multi_allelic_mode with
  | MultiAllelicMode.UNSPECIFIED =>
    .error ("multi_allelic_mode cannot be UNSPECIFIED")
  | MultiAllelicMode.NO_HET_ALT_IMAGES =>
    .ok (alts.map (fun alt => pySorted strLt [alt]))
  | MultiAllelicMode.ADD_HET_ALT_IMAGES =>
    .ok ((combinations2 (ref :: alts)).map (fun combination =>
      pySorted strLt (([combination.1, combination.2].dedup).filter
        (fun a => decide (a ≠ ref)))))

/-- The row generator inside `build_pileup_for_one_sample`: encode each read in
stream order, dropping unrepresentable ones, and tag each accepted row with
`(haplotype index, alignment position)`. -/
def _row_generator (opts : PileupImageOptions) (encodeRow : Read → Option Row)
    (reads : List Read) : List (Int × Int × Row) :=
  reads.filterMap (fun read =>
    match encodeRow read with
    | none => none
    | some read_row =>
      let hap_idx : Int :=
        if opts.sort_by_haplotypes then
          match read.hpTag with
          | some v => v
          | none => 0
        else 0
      some (hap_idx, read.position, read_row))

/-- The sampling capacity `max_reads_one_sample` of
`build_pileup_for_one_sample`: role height minus the reference band. -/
def max_reads_one_sample (opts : PileupImageOptions)
    (sample_type : Option SampleType) : Nat :=
  if opts.sequencing_type = SequencingType.TRIO then
    match sample_type with
    | some SampleType.CHILD => opts.height_child - opts.reference_band_height
    | some SampleType.PARENT => opts.height_parent - opts.reference_band_height
    | none => opts.height - opts.reference_band_height
  else opts.height - opts.reference_band_height

/-- The target height `height_one_sample` of `build_pileup_for_one_sample`:
`height` in single-sample mode, `height_child` / `height_parent` per role in
trio mode. -/
def height_one_sample (opts : PileupImageOptions)
    (sample_type : Option SampleType) : Nat :=
  if opts.sequencing_type = SequencingType.TRIO then
    match sample_type with
    | some SampleType.CHILD => opts.height_child
    | some SampleType.PARENT => opts.height_parent
    | none => opts.height
  else opts.height

/-- The local `sample` of `build_pileup_for_one_sample`: reservoir-sample the
generated rows with a generator freshly seeded from the configured seed, then
sort (stably) by `(haplotype index, alignment position)`. -/
def one_sample_sorted_rows (opts : PileupImageOptions)
    (encodeRow : Read → Option Row) (reads : List Read)
    (sample_type : Option SampleType) : List (Int × Int × Row) :=
  pySorted rowKeyLt
    (reservoir_sample (_row_generator opts encodeRow reads)
      (max_reads_one_sample opts sample_type)
      (npRandomState opts.random_seed)).1

/-- `PileupImageCreator._empty_image_row`: one all-zero filler row. -/
def _empty_image_row (opts : PileupImageOptions) : Row :=
  List.replicate opts.width (List.replicate opts.num_channels 0)

/-- `build_pileup_for_one_sample` (the helper closed over one sample's data
inside `build_pileup`): `[]` for an absent stream, otherwise reference band,
sampled and sorted read rows, and zero padding up to the role target height.
`np_random_global` is the ambient process-wide numpy random state, which the
source never consults (it seeds its own generator from the options). -/
def build_pileup_for_one_sample (opts : PileupImageOptions)
    (encodeRow : Read → Option Row) (refRow : Row)
    (reads : Option (List Read)) (sample_type : Option SampleType)
    (np_random_global : RandomState) : List Row :=
  match reads with
  | none => []
  | some reads =>
    let rows := List.replicate opts.reference_band_height refRow
    let sample := one_sample_sorted_rows opts encodeRow reads sample_type
    let rows := rows ++ sample.map (fun t => t.2.2)
    let n_missing_rows := height_one_sample opts sample_type - rows.length
    if 0 < n_missing_rows then rows ++ List.replicate n_missing_rows (_empty_image_row opts)
    else rows

/-- `np.vstack` over a list of single-row arrays of uniform width and channel
count (uniformity is the external encoder's contract): plain concatenation,
except that numpy raises on an empty list. -/
def np_vstack (rows : List Row) : Except String Image :=
  if rows = [] then .error ("need at least one array to concatenate")
  else .ok rows

/-- The row assembly of `build_pileup`: in trio mode parent1's block, then the
child's, then parent2's; in single-sample mode only the child's. -/
def build_pileup_rows (opts : PileupImageOptions)
    (encodeRow : Read → Option Row) (refRow : Row)
    (reads reads_parent1 reads_parent2 : Option (List Read))
    (np_random_global : RandomState) : List Row :=
  (if opts.sequencing_type = SequencingType.TRIO then
    build_pileup_for_one_sample opts encodeRow refRow reads_parent1
      (some SampleType.PARENT) np_random_global
  else []) ++
  build_pileup_for_one_sample opts encodeRow refRow reads
    (some SampleType.CHILD) np_random_global ++
  (if opts.sequencing_type = SequencingType.TRIO then
    build_pileup_for_one_sample opts encodeRow refRow reads_parent2
      (some SampleType.PARENT) np_random_global
  else [])

/-- `PileupImageCreator.build_pileup`: argument validation (window width,
non-empty allele subset, allele membership, anchor base unless `custom_ref`),
then per-sample assembly and vertical stacking. -/
def build_pileup (pic : PileupImageCreator) (dv_call : DeepVariantCall)
    (refbases : String) (reads : Option (List Read))
    (alt_alleles : List String) (reads_parent1 reads_parent2 : Option (List Read))
    (custom_ref : Bool) (np_random_global : RandomState) : Except String Image :=
  let opts := pic.options
  if refbases.length ≠ opts.width then
    .error ("refbases length does not match configured width")
  else if alt_alleles = [] then
    .error ("alt_alleles cannot be empty")
  else if alt_alleles.any (fun alt => decide (alt ∉ dv_call.variant.alternate_bases)) then
    .error ("all elements of alt_alleles must be the alternate bases of dv_call.variant")
  else
    let image_start_pos : Int := dv_call.variant.start - (_compute_half_width opts.width : Int)
    if custom_ref = false ∧
        pyCharAt refbases (_compute_half_width opts.width) ≠
          pyCharAt dv_call.variant.reference_bases 0 then
      .error ("the middle base of the reference window does not match the first character of variant reference_bases")
    else
      np_vstack (build_pileup_rows opts
        (fun read => pic.encode_read dv_call refbases read image_start_pos alt_alleles)
        (pic.encode_reference refbases)
        reads reads_parent1 reads_parent2 np_random_global)

/-- The shape triple numpy would report for a (rectangular) image in the list
model: height, first row's width, first pixel's channel count. -/
def imgShape (img : Image) : Nat × Nat × Nat :=
  (img.length, (img.headD []).length, ((img.headD []).headD []).length)

/-- The data of the numpy slice `img[:, :, c]`. -/
def slice_data (img : Image) (c : Nat) : List (List Nat) :=
  img.map (fun row => row.map (fun px => px.getD c 0))

/-- The numpy slice `img[:, :, c]`, which raises `IndexError` when `c` is not
below the channel count. -/
def channel_slice (img : Image) (c : Nat) : Option (List (List Nat)) :=
  if c < (imgShape img).2.2 then some (slice_data img c) else none

/-- `np.stack(channels, axis=2)` over equal-shape 2-D arrays: pixel `(i, j)`
of the result lists the `(i, j)` entries of all the stacked channels. -/
def np_stack_axis2 (channels : List (List (List Nat))) : Image :=
  match channels with
  | [] => []
  | m :: _ =>
    (List.range m.length).map (fun i =>
      (List.range ((m.getD i []).length)).map (fun j =>
        channels.map (fun chan => (chan.getD i []).getD j 0)))

/-- `_represent_alt_aligned_pileups`: duplicate a single alt image, validate
the count and the shared shape, then combine per the representation string. -/
def _represent_alt_aligned_pileups (representation : String) (ref_image : Image)
    (alt_images : List Image) : Except String Image :=
  let alt_images2 := if alt_images.length = 1 then alt_images ++ alt_images else alt_images
  match alt_images2 with
  | [alt0, alt1] =>
    if ¬(imgShape ref_image = imgShape alt0 ∧ imgShape alt0 = imgShape alt1) then
      .error ("Pileup images must be the same shape to be combined.")
    else if representation = "rows" then
      .ok (ref_image ++ alt0 ++ alt1)
    else if representation = "base_channels" then
      match channel_slice alt0 0, channel_slice alt1 0 with
      | some ca, some cb =>
        .ok (np_stack_axis2
          ((List.range (imgShape ref_image).2.2).filterMap (channel_slice ref_image) ++ [ca, cb]))
      | _, _ => .error ("IndexError: channel index out of bounds")
    else if representation = "diff_channels" then
      match channel_slice alt0 5, channel_slice alt1 5 with
      | some ca, some cb =>
        .ok (np_stack_axis2
          ((List.range (imgShape ref_image).2.2).filterMap (channel_slice ref_image) ++ [ca, cb]))
      | _, _ => .error ("IndexError: channel index out of bounds")
    else
      .error ("alt_aligned_pileups received invalid value. Must be one of rows, base_channels, or diff_channels.")
  | _ => .error ("alt_images must contain exactly one or two arrays.")

/-- Left-to-right effectful map in `Except`, as a Python list comprehension
evaluates: the first raised error propagates. -/
def exceptMapM (f : α → Except String β) : List α → Except String (List β)
  | [] => .ok []
  | x :: xs =>
    match f x with
    | .error e => .error e
    | .ok y =>
      match exceptMapM f xs with
      | .error e => .error e
      | .ok ys => .ok (y :: ys)

/-- A Python dict keyed by allele string, as an association list. -/
abbrev HapDict (α : Type) := List (String × α)

/-- Python dict subscription `d[k]`: `KeyError` when absent. -/
def dict_get (d : HapDict α) (k : String) : Except String α :=
  match d.lookup k with
  | some v => .ok v
  | none => .error ("KeyError")

/-- `_pileup_for_pair_of_alts` inside `create_pileup_images`: the ref-aligned
image, plus (when an alt-aligned representation is configured) one image per
allele built from that allele's haplotype window and reads, combined by
`_represent_alt_aligned_pileups`.  Python truthiness makes a missing or empty
haplotype dict fail the `populated` check. -/
def _pileup_for_pair_of_alts (pic : PileupImageCreator) (dv_call : DeepVariantCall)
    (ref_bases : String) (reads reads_parent1 reads_parent2 : List Read)
    (haplotype_alignments : Option (HapDict (List Read)))
    (haplotype_sequences : Option (HapDict String))
    (parent1_hap_alns parent2_hap_alns : Option (HapDict (List Read)))
    (np_random_global : RandomState) (alt_alleles : List String) :
    Except String Image :=
  match build_pileup pic dv_call ref_bases (some reads) alt_alleles
      (some reads_parent1) (some reads_parent2) false np_random_global with
  | .error e => .error e
  | .ok ref_image =>
    if pic.options.alt_aligned_pileup ≠ "" then
      match haplotype_alignments, haplotype_sequences, parent1_hap_alns, parent2_hap_alns with
      | some ha, some hs, some p1, some p2 =>
        if ha = [] ∨ hs = [] ∨ p1 = [] ∨ p2 = [] then
          .error ("haplotype_alignments, parent1_hap_alns, parent2_hap_alns, and haplotype_sequences must all be populated if alt_aligned_pileups is turned on.")
        else
          match exceptMapM (fun alt =>
            match dict_get hs alt, dict_get ha alt, dict_get p1 alt, dict_get p2 alt with
            | .ok refb, .ok aln, .ok a1, .ok a2 =>
              build_pileup pic dv_call refb (some aln) alt_alleles
                (some a1) (some a2) true np_random_global
            | _, _, _, _ => .error ("KeyError")) alt_alleles with
          | .error e => .error e
          | .ok alt_images =>
            _represent_alt_aligned_pileups pic.options.alt_aligned_pileup ref_image alt_images
      | _, _, _, _ =>
        .error ("haplotype_alignments, parent1_hap_alns, parent2_hap_alns, and haplotype_sequences must all be populated if alt_aligned_pileups is turned on.")
    else .ok ref_image

/-- `PileupImageCreator.create_pileup_images`: the orchestrator.  `.ok none`
models the Python `return None` taken when the reference window is invalid or
empty; otherwise one `(allele subset, image)` pair per enumerated combination. -/
def create_pileup_images (pic : PileupImageCreator) (dv_call : DeepVariantCall)
    (haplotype_alignments : Option (HapDict (List Read)))
    (haplotype_sequences : Option (HapDict String))
    (parent1_hap_alns parent2_hap_alns : Option (HapDict (List Read)))
    (np_random_global : RandomState) :
    Except String (Option (List (List String × Image))) :=
  let variant := dv_call.variant
  match get_reference_bases pic variant with
  | none => .ok none
  | some ref_bases =>
    if ref_bases = "" then .ok none
    else
      match get_reads pic variant none none with
      | .error e => .error e
      | .ok reads =>
        match get_reads pic variant none (some 1) with
        | .error e => .error e
        | .ok reads_parent1 =>
          match get_reads pic variant none (some 2) with
          | .error e => .error e
          | .ok reads_parent2 =>
            match _alt_allele_combinations pic.options variant with
            | .error e => .error e
            | .ok combos =>
              match exceptMapM (fun alts =>
                match _pileup_for_pair_of_alts pic dv_call ref_bases reads
                    reads_parent1 reads_parent2 haplotype_alignments
                    haplotype_sequences parent1_hap_alns parent2_hap_alns
                    np_random_global alts with
                | .error e => .error e
                | .ok img => .ok (alts, img)) combos with
              | .error e => .error e
              | .ok pairs => .ok (some pairs)

/-- Rectangularity-and-shape predicate for the list model of a numpy image. -/
def IsShape (img : Image) (h w c : Nat) : Prop :=
  img.length = h ∧ ∀ row ∈ img, row.length = w ∧ ∀ px ∈ row, px.length = c

instance (img : Image) (h w c : Nat) : Decidable (IsShape img h w c) := by
  unfold IsShape
  infer_instance

/-- Boolean error test on `Except`. -/
def isError : Except String α → Bool
  | .error _ => true
  | .ok _ => false

/-! Concrete fixtures: small configurations, variants, readers and images used
by the witness and counterexample theorems below. -/

/-- A toy encoder representing every read, rendering its position. -/
def fixEncodePos : Read → Option Row := fun r => some [[r.position.toNat]]

/-- A toy encoder rendering the read's haplotype tag, so that rows of reads
with equal sort keys stay distinguishable. -/
def fixEncodeHp : Read → Option Row := fun r => some [[(r.hpTag.getD 0).toNat]]

/-- A small single-sample configuration. -/
def fixOpts : PileupImageOptions :=
  { width := 3, height := 5, height_child := 4, height_parent := 3,
    reference_band_height := 1, num_channels := 1,
    multi_allelic_mode := MultiAllelicMode.ADD_HET_ALT_IMAGES,
    sequencing_type := SequencingType.UNSPECIFIED_SEQ_TYPE,
    read_overlap_buffer_bp := 5, random_seed := 0,
    sort_by_haplotypes := false, alt_aligned_pileup := "" }

/-- The same configuration in singles-only enumeration mode. -/
def fixOptsNoHet : PileupImageOptions :=
  { fixOpts with multi_allelic_mode := MultiAllelicMode.NO_HET_ALT_IMAGES }

/-- A configuration with no reference band, capacity 2 and seed 3, under which
the modelled sampler's first draw replaces reservoir slot 0. -/
def ceOpts : PileupImageOptions :=
  { fixOpts with height := 2, reference_band_height := 0, random_seed := 3 }

/-- A trio configuration. -/
def fixTrioOpts : PileupImageOptions :=
  { fixOpts with
    sequencing_type := SequencingType.TRIO
    height_child := 3
    height_parent := 2 }

/-- Five reads, more than `fixOpts` capacity 5 - 1 = 4. -/
def fixReads5 : List Read :=
  [⟨5, none⟩, ⟨4, none⟩, ⟨3, none⟩, ⟨2, none⟩, ⟨1, none⟩]

/-- Three reads at one position whose rows tie on the sort key. -/
def ceReads : List Read := [⟨7, some 1⟩, ⟨7, some 2⟩, ⟨7, some 3⟩]

/-- The spec's worked example: reference A with alternates C and G. -/
def fixVariant : Variant := ⟨"chr1", 10, 11, "A", ["C", "G"]⟩

/-- A single-alternate variant whose reference bases start with C. -/
def fixVariantC : Variant := ⟨"chr1", 10, 11, "CT", ["C"]⟩

/-- A variant with no alternate alleles. -/
def fixVariantNoAlt : Variant := ⟨"chr1", 10, 11, "A", []⟩

/-- A reference reader for which every window is valid. -/
def fixRefReaderOk : RefReader := ⟨fun _ => true, fun _ => "AAA"⟩

/-- A reference reader for which every window is off the contig. -/
def fixRefReaderOff : RefReader := ⟨fun _ => false, fun _ => "AAA"⟩

/-- A read source returning no reads. -/
def fixSamEmpty : SamReader := fun _ => []

/-- A concrete creator over the fixtures, with both parent readers present. -/
def fixPic : PileupImageCreator :=
  ⟨fixOpts, fun _ => [[0]], fun _ _ r _ _ => some [[r.position.toNat]],
    fixRefReaderOk, fixSamEmpty, some fixSamEmpty, some fixSamEmpty⟩

/-- The fixture creator with an always-invalid reference window. -/
def fixPicOff : PileupImageCreator :=
  { fixPic with ref_reader := fixRefReaderOff }

/-- The fixture creator in trio mode. -/
def fixTrioPic : PileupImageCreator :=
  { fixPic with options := fixTrioOpts }

/-- Candidate call for the no-alternate variant. -/
def fixDvNoAlt : DeepVariantCall := ⟨fixVariantNoAlt⟩

/-- Candidate call for the single-alternate variant. -/
def fixDvC : DeepVariantCall := ⟨fixVariantC⟩

/-- A 1 x 1 x 6 reference image. -/
def fixImgRef : Image := [[[0, 1, 2, 3, 4, 5]]]

/-- A 1 x 1 x 6 alt image. -/
def fixImgA0 : Image := [[[10, 11, 12, 13, 14, 15]]]

/-- Another 1 x 1 x 6 alt image. -/
def fixImgA1 : Image := [[[20, 21, 22, 23, 24, 25]]]

/-! General lemmas: the stable sort, the reservoir sampler, `combinations2`,
and list indexing facts used by the shape lemmas. -/

theorem mem_insertSorted (lt : α → α → Bool) (x z : α) (l : List α) :
    z ∈ insertSorted lt x l ↔ z = x ∨ z ∈ l := by
  induction l with
  | nil => simp [insertSorted]
  | cons y ys ih =>
    simp only [insertSorted]
    split
    · simp only [List.mem_cons, ih]
      tauto
    · simp only [List.mem_cons]

theorem length_insertSorted (lt : α → α → Bool) (x : α) (l : List α) :
    (insertSorted lt x l).length = l.length + 1 := by
  induction l with
  | nil => rfl
  | cons y ys ih =>
    simp only [insertSorted]
    split
    · simp [ih]
    · simp

theorem length_pySorted (lt : α → α → Bool) (l : List α) :
    (pySorted lt l).length = l.length := by
  induction l with
  | nil => rfl
  | cons x xs ih => simp [pySorted, length_insertSorted, ih]

theorem pairwise_insertSorted (lt : α → α → Bool)
    (hasym : ∀ a b, lt a b = true → lt b a = false)
    (htrans : ∀ a b c, lt b a = false → lt c b = false → lt c a = false)
    (x : α) (l : List α)
    (hl : l.Pairwise (fun a b => lt b a = false)) :
    (insertSorted lt x l).Pairwise (fun a b => lt b a = false) := by
  induction l with
  | nil => simp [insertSorted]
  | cons y ys ih =>
    rcases List.pairwise_cons.mp hl with ⟨hy, hys⟩
    simp only [insertSorted]
    split
    case isTrue hlt =>
      refine List.pairwise_cons.mpr ⟨?_, ih hys⟩
      intro z hz
      rcases (mem_insertSorted lt x z ys).mp hz with rfl | hz'
      · exact hasym y z hlt
      · exact hy z hz'
    case isFalse hlt =>
      have hyx : lt y x = false := by
        revert hlt
        cases lt y x <;> simp
      refine List.pairwise_cons.mpr ⟨?_, hl⟩
      intro z hz
      rcases List.mem_cons.mp hz with rfl | hz'
      · exact hyx
      · exact htrans x y z hyx (hy z hz')

theorem pairwise_pySorted (lt : α → α → Bool)
    (hasym : ∀ a b, lt a b = true → lt b a = false)
    (htrans : ∀ a b c, lt b a = false → lt c b = false → lt c a = false)
    (l : List α) :
    (pySorted lt l).Pairwise (fun a b => lt b a = false) := by
  induction l with
  | nil => simp [pySorted]
  | cons x xs ih => exact pairwise_insertSorted lt hasym htrans x _ ih

theorem filter_insertSorted (lt : α → α → Bool) (p : α → Bool) (x : α) (l : List α)
    (hp : p x = true → ∀ y, p y = true → lt y x = false) :
    (insertSorted lt x l).filter p =
      if p x = true then x :: l.filter p else l.filter p := by
  induction l with
  | nil =>
    simp only [insertSorted, List.filter]
    cases hpx : p x <;> simp
  | cons y ys ih =>
    simp only [insertSorted]
    split
    case isTrue hlt =>
      cases hpx : p x with
      | true =>
        have hpy : p y = false := by
          cases hpy : p y with
          | true =>
            have := hp hpx y hpy
            rw [this] at hlt
            exact absurd hlt (by simp)
          | false => rfl
        simp only [List.filter_cons, hpy, ih, hpx]
        simp [List.filter_cons, hpy]
      | false =>
        simp only [List.filter_cons, ih, hpx]
        cases hpy : p y <;> simp [List.filter_cons, hpy]
    case isFalse hlt =>
      cases hpx : p x <;> simp [List.filter_cons, hpx]

theorem filter_pySorted (lt : α → α → Bool) (p : α → Bool)
    (hp : ∀ x y, p x = true → p y = true → lt y x = false) (l : List α) :
    (pySorted lt l).filter p = l.filter p := by
  induction l with
  | nil => rfl
  | cons x xs ih =>
    simp only [pySorted]
    rw [filter_insertSorted lt p x _ (fun hx y hy => hp x y hx hy), ih]
    cases hpx : p x <;> simp [List.filter_cons, hpx]

theorem reservoir_fold_all (k : Nat) (l : List α) :
    ∀ (samples : List α) (i : Nat) (r : RandomState),
      samples.length + l.length ≤ k →
      (l.foldl (reservoir_step k) (samples, i, r)).1 = samples ++ l := by
  induction l with
  | nil =>
    intro samples i r h
    simp
  | cons x xs ih =>
    intro samples i r h
    have hlt : samples.length < k := by
      simp only [List.length_cons] at h
      omega
    simp only [List.foldl_cons, reservoir_step, if_pos hlt]
    have := ih (samples ++ [x]) (i + 1) r (by simp only [List.length_append, List.length_cons] at h ⊢; simp; omega)
    rw [this, List.append_assoc]
    rfl

theorem reservoir_fold_length (k : Nat) (l : List α) :
    ∀ (samples : List α) (i : Nat) (r : RandomState),
      samples.length ≤ k →
      ((l.foldl (reservoir_step k) (samples, i, r)).1).length
        = min k (samples.length + l.length) := by
  induction l with
  | nil =>
    intro samples i r h
    simp only [List.foldl_nil, List.length_nil]
    omega
  | cons x xs ih =>
    intro samples i r h
    simp only [List.foldl_cons, reservoir_step]
    by_cases hlt : samples.length < k
    · rw [if_pos hlt]
      have := ih (samples ++ [x]) (i + 1) r (by simp; omega)
      rw [this]
      simp only [List.length_append, List.length_cons, List.length_nil]
      omega
    · rw [if_neg hlt]
      have hk : samples.length = k := by omega
      by_cases hj : (randint r (i + 1)).1 < k
      · rw [if_pos hj]
        have := ih (samples.set (randint r (i + 1)).1 x) (i + 1) (randint r (i + 1)).2
          (by simp [hk])
        rw [this]
        simp only [List.length_set, List.length_cons, hk]
        omega
      · rw [if_neg hj]
        have := ih samples (i + 1) (randint r (i + 1)).2 (by omega)
        rw [this]
        simp only [List.length_cons]
        omega

theorem reservoir_sample_all (l : List α) (k : Nat) (r : RandomState)
    (h : l.length ≤ k) : (reservoir_sample l k r).1 = l := by
  have := reservoir_fold_all k l [] 0 r (by simpa using h)
  simpa [reservoir_sample] using this

theorem length_reservoir_sample (l : List α) (k : Nat) (r : RandomState) :
    ((reservoir_sample l k r).1).length = min k l.length := by
  have := reservoir_fold_length k l [] 0 r (by simp)
  simpa [reservoir_sample] using this

theorem exceptMapM_ok_length (f : α → Except String β) (l : List α) (ys : List β)
    (h : exceptMapM f l = .ok ys) : ys.length = l.length := by
  induction l generalizing ys with
  | nil =>
    simp only [exceptMapM] at h
    cases h
    rfl
  | cons x xs ih =>
    simp only [exceptMapM] at h
    cases hfx : f x with
    | error e => rw [hfx] at h; cases h
    | ok y =>
      rw [hfx] at h
      cases hrest : exceptMapM f xs with
      | error e => rw [hrest] at h; cases h
      | ok ys' =>
        rw [hrest] at h
        cases h
        simp [ih ys' hrest]

theorem length_combinations2 (l : List α) :
    (combinations2 l).length = l.length.choose 2 := by
  induction l with
  | nil => rfl
  | cons x xs ih =>
    simp only [combinations2, List.length_append, List.length_map, ih, List.length_cons]
    rw [Nat.choose_succ_succ xs.length 1, Nat.choose_one_right]

theorem mem_combinations2 (l : List α) (p : α × α) (hp : p ∈ combinations2 l) :
    p.1 ∈ l ∧ p.2 ∈ l := by
  induction l with
  | nil => cases hp
  | cons x xs ih =>
    simp only [combinations2, List.mem_append, List.mem_map] at hp
    rcases hp with ⟨y, hy, rfl⟩ | hp
    · exact ⟨List.mem_cons_self x xs, List.mem_cons_of_mem x hy⟩
    · rcases ih hp with ⟨h1, h2⟩
      exact ⟨List.mem_cons_of_mem x h1, List.mem_cons_of_mem x h2⟩

theorem combinations2_ne (l : List α) (hl : l.Nodup) (p : α × α)
    (hp : p ∈ combinations2 l) : p.1 ≠ p.2 := by
  induction l with
  | nil => cases hp
  | cons x xs ih =>
    rcases List.nodup_cons.mp hl with ⟨hx, hxs⟩
    simp only [combinations2, List.mem_append, List.mem_map] at hp
    rcases hp with ⟨y, hy, rfl⟩ | hp
    · intro h
      have h' : x = y := h
      exact hx (h' ▸ hy)
    · exact ih hxs hp

theorem pairLt_iff (a b : Int × Int) :
    pairLt a b = true ↔ (a.1 < b.1 ∨ (a.1 = b.1 ∧ a.2 < b.2)) := by
  simp [pairLt]

theorem pairLt_false_iff (a b : Int × Int) :
    pairLt a b = false ↔ ¬(a.1 < b.1 ∨ (a.1 = b.1 ∧ a.2 < b.2)) := by
  rw [← pairLt_iff]
  cases pairLt a b <;> simp

theorem rowKeyLt_asymm (a b : Int × Int × Row) (h : rowKeyLt a b = true) :
    rowKeyLt b a = false := by
  simp only [rowKeyLt, pairLt_iff, pairLt_false_iff] at h ⊢
  omega

theorem rowKeyLt_ntrans (a b c : Int × Int × Row) (h1 : rowKeyLt b a = false)
    (h2 : rowKeyLt c b = false) : rowKeyLt c a = false := by
  simp only [rowKeyLt, pairLt_false_iff] at h1 h2 ⊢
  omega

theorem charListLt_asymm :
    ∀ as bs : List Char, charListLt as bs = true → charListLt bs as = false := by
  intro as
  induction as with
  | nil =>
    intro bs h
    cases bs with
    | nil => simp [charListLt] at h
    | cons b bs => rfl
  | cons a as ih =>
    intro bs h
    cases bs with
    | nil => simp [charListLt] at h
    | cons b bs =>
      simp only [charListLt] at h ⊢
      by_cases h1 : a.toNat < b.toNat
      · rw [if_neg (by omega), if_pos h1]
      · rw [if_neg h1] at h
        by_cases h2 : b.toNat < a.toNat
        · rw [if_pos h2] at h
          exact absurd h (by simp)
        · rw [if_neg h2] at h
          rw [if_neg h2, if_neg h1]
          exact ih bs h

theorem charListLt_ntrans :
    ∀ as bs cs : List Char, charListLt bs as = false → charListLt cs bs = false →
      charListLt cs as = false := by
  intro as
  induction as with
  | nil =>
    intro bs cs h1 h2
    cases cs with
    | nil => rfl
    | cons c cs => rfl
  | cons a as ih =>
    intro bs cs h1 h2
    cases bs with
    | nil => simp [charListLt] at h1
    | cons b bs =>
      cases cs with
      | nil => simp [charListLt] at h2
      | cons c cs =>
        simp only [charListLt] at h1 h2 ⊢
        by_cases hba : b.toNat < a.toNat
        · rw [if_pos hba] at h1
          exact absurd h1 (by simp)
        · rw [if_neg hba] at h1
          by_cases hcb : c.toNat < b.toNat
          · rw [if_pos hcb] at h2
            exact absurd h2 (by simp)
          · rw [if_neg hcb] at h2
            by_cases hab : a.toNat < b.toNat
            · rw [if_pos hab] at h1
              rw [if_neg (by omega), if_pos (by omega)]
            · rw [if_neg hab] at h1
              by_cases hbc : b.toNat < c.toNat
              · rw [if_pos hbc] at h2
                rw [if_neg (by omega), if_pos (by omega)]
              · rw [if_neg hbc] at h2
                rw [if_neg (by omega), if_neg (by omega)]
                exact ih bs cs h1 h2

theorem strLt_asymm (a b : String) (h : strLt a b = true) : strLt b a = false :=
  charListLt_asymm a.data b.data h

theorem strLt_ntrans (a b c : String) (h1 : strLt b a = false)
    (h2 : strLt c b = false) : strLt c a = false :=
  charListLt_ntrans a.data b.data c.data h1 h2

theorem getD_cons_succ_eq (a : α) (l : List α) (n : Nat) (d : α) :
    (a :: l).getD (n + 1) d = l.getD n d := rfl

theorem getD_map_lt (f : α → β) (l : List α) (i : Nat) (h : i < l.length)
    (d : β) (dd : α) : (l.map f).getD i d = f (l.getD i dd) := by
  induction l generalizing i with
  | nil => simp at h
  | cons a l ih =>
    cases i with
    | zero => rfl
    | succ n =>
      simp only [List.map_cons, getD_cons_succ_eq]
      exact ih n (by simpa using h)

theorem getD_range_lt (n i : Nat) (h : i < n) (d : Nat) :
    (List.range n).getD i d = i := by
  rw [List.getD_eq_getElem?_getD, List.getElem?_range h]
  rfl

theorem getD_map_range (f : Nat → α) (n i : Nat) (h : i < n) (d : α) :
    ((List.range n).map f).getD i d = f i := by
  rw [getD_map_lt f _ i (by simpa using h) d 0, getD_range_lt n i h]

theorem map_getD_range_self (l : List α) (d : α) :
    (List.range l.length).map (fun k => l.getD k d) = l := by
  apply List.ext_getElem?
  intro i
  by_cases h : i < l.length
  · simp [List.getElem?_map, List.getElem?_range h, List.getD_eq_getElem?_getD,
      List.getElem?_eq_getElem h]
  · have h1 : l.length ≤ i := by omega
    rw [List.getElem?_eq_none (by simpa using h1), List.getElem?_eq_none h1]

theorem getD_mem_of_lt (l : List α) (i : Nat) (d : α) (h : i < l.length) :
    l.getD i d ∈ l := by
  induction l generalizing i with
  | nil => simp at h
  | cons a l ih =>
    cases i with
    | zero => exact List.mem_cons_self a l
    | succ n => exact List.mem_cons_of_mem a (ih n (by simpa using h))

theorem filterMap_eq_map_of_some (f : α → Option β) (g : α → β) (l : List α)
    (h : ∀ a ∈ l, f a = some (g a)) : l.filterMap f = l.map g := by
  induction l with
  | nil => rfl
  | cons x xs ih =>
    rw [List.filterMap_cons, h x (List.mem_cons_self x xs), List.map_cons,
      ih (fun a ha => h a (List.mem_cons_of_mem x ha))]

theorem isShape_append (x y : Image) (hx hy w c : Nat)
    (h1 : IsShape x hx w c) (h2 : IsShape y hy w c) :
    IsShape (x ++ y) (hx + hy) w c := by
  obtain ⟨hl1, hr1⟩ := h1
  obtain ⟨hl2, hr2⟩ := h2
  refine ⟨by simp [hl1, hl2], ?_⟩
  intro row hrow
  rcases List.mem_append.mp hrow with h | h
  · exact hr1 row h
  · exact hr2 row h

theorem imgShape_congr (x y : Image) (h w c : Nat)
    (h1 : IsShape x h w c) (h2 : IsShape y h w c) : imgShape x = imgShape y := by
  obtain ⟨hx1, hx2⟩ := h1
  obtain ⟨hy1, hy2⟩ := h2
  cases x with
  | nil =>
    cases y with
    | nil => rfl
    | cons r rs =>
      simp only [List.length_nil, List.length_cons] at hx1 hy1
      omega
  | cons r rs =>
    cases y with
    | nil =>
      simp only [List.length_nil, List.length_cons] at hx1 hy1
      omega
    | cons q qs =>
      have hw : r.length = w := (hx2 r (List.mem_cons_self r rs)).1
      have hw' : q.length = w := (hy2 q (List.mem_cons_self q qs)).1
      have hlen : rs.length = qs.length := by
        simp only [List.length_cons] at hx1 hy1
        omega
      unfold imgShape
      simp only [List.headD_cons, List.length_cons, hlen, hw, hw']
      cases r with
      | nil =>
        have : q = [] := List.length_eq_zero.mp (by rw [hw']; rw [← hw]; rfl)
        subst this
        rfl
      | cons px pxs =>
        cases q with
        | nil =>
          exfalso
          rw [← hw'] at hw
          simp at hw
        | cons qx qxs =>
          have hc : px.length = c :=
            (hx2 _ (List.mem_cons_self _ rs)).2 px (List.mem_cons_self px pxs)
          have hc' : qx.length = c :=
            (hy2 _ (List.mem_cons_self _ qs)).2 qx (List.mem_cons_self qx qxs)
          simp [hc, hc']

theorem imgShape_channels (img : Image) (h w c : Nat) (hs : IsShape img h w c)
    (hh : 0 < h) (hw : 0 < w) : (imgShape img).2.2 = c := by
  obtain ⟨h1, h2⟩ := hs
  cases img with
  | nil => simp at h1; omega
  | cons r rs =>
    cases r with
    | nil =>
      have : (0 : Nat) = w := ((h2 [] (List.mem_cons_self [] rs)).1 : List.length [] = w)
      omega
    | cons px pxs =>
      unfold imgShape
      simp only [List.headD_cons]
      exact (h2 _ (List.mem_cons_self _ rs)).2 px (List.mem_cons_self px pxs)

theorem channel_slice_of_lt (img : Image) (h w c m : Nat) (hs : IsShape img h w c)
    (hh : 0 < h) (hw : 0 < w) (hm : m < c) :
    channel_slice img m = some (slice_data img m) := by
  unfold channel_slice
  rw [imgShape_channels img h w c hs hh hw, if_pos hm]

theorem slice_data_shape (img : Image) (h w c m : Nat) (hs : IsShape img h w c) :
    (slice_data img m).length = h ∧ ∀ row ∈ slice_data img m, row.length = w := by
  obtain ⟨h1, h2⟩ := hs
  refine ⟨by simp [slice_data, h1], ?_⟩
  intro row hrow
  rcases List.mem_map.mp hrow with ⟨r, hr, rfl⟩
  simp [(h2 r hr).1]

theorem slice_data_getD (img : Image) (h w c m i j : Nat) (hs : IsShape img h w c)
    (hi : i < h) (hj : j < w) :
    ((slice_data img m).getD i []).getD j 0 = ((img.getD i []).getD j []).getD m 0 := by
  obtain ⟨h1, h2⟩ := hs
  have hi' : i < img.length := by omega
  unfold slice_data
  rw [getD_map_lt _ img i hi' [] []]
  have hrow : img.getD i [] ∈ img := getD_mem_of_lt img i [] hi'
  have hjw : j < (img.getD i []).length := by rw [(h2 _ hrow).1]; omega
  rw [getD_map_lt _ _ j hjw 0 []]

theorem np_stack_eq (chans : List (List (List Nat))) (h w : Nat)
    (hne : chans ≠ [])
    (hsh : ∀ m ∈ chans, m.length = h ∧ ∀ row ∈ m, row.length = w) :
    np_stack_axis2 chans =
      (List.range h).map (fun i => (List.range w).map (fun j =>
        chans.map (fun m => (m.getD i []).getD j 0))) := by
  cases chans with
  | nil => exact absurd rfl hne
  | cons m rest =>
    have hm := hsh m (List.mem_cons_self m rest)
    simp only [np_stack_axis2, hm.1]
    apply List.map_congr_left
    intro i hi
    have hi' : i < h := List.mem_range.mp hi
    have hrow : m.getD i [] ∈ m := getD_mem_of_lt m i [] (by omega)
    rw [hm.2 _ hrow]

theorem np_stack_isShape (chans : List (List (List Nat))) (h w : Nat)
    (hne : chans ≠ [])
    (hsh : ∀ m ∈ chans, m.length = h ∧ ∀ row ∈ m, row.length = w) :
    IsShape (np_stack_axis2 chans) h w chans.length := by
  rw [np_stack_eq chans h w hne hsh]
  refine ⟨by simp, ?_⟩
  intro row hrow
  rcases List.mem_map.mp hrow with ⟨i, hi, rfl⟩
  refine ⟨by simp, ?_⟩
  intro px hpx
  rcases List.mem_map.mp hpx with ⟨j, hj, rfl⟩
  simp

theorem np_stack_getD (chans : List (List (List Nat))) (h w i j : Nat)
    (hne : chans ≠ [])
    (hsh : ∀ m ∈ chans, m.length = h ∧ ∀ row ∈ m, row.length = w)
    (hi : i < h) (hj : j < w) :
    (((np_stack_axis2 chans).getD i []).getD j []) =
      chans.map (fun m => (m.getD i []).getD j 0) := by
  rw [np_stack_eq chans h w hne hsh, getD_map_range _ h i hi [],
    getD_map_range _ w j hj []]

/-! Lemmas about the per-sample assembler. -/

theorem max_reads_eq_height_sub_band (opts : PileupImageOptions)
    (st : Option SampleType) :
    max_reads_one_sample opts st
      = height_one_sample opts st - opts.reference_band_height := by
  unfold max_reads_one_sample height_one_sample
  split
  · cases st with
    | none => rfl
    | some t => cases t <;> rfl
  · rfl

theorem height_one_sample_trio_child (opts : PileupImageOptions)
    (h : opts.sequencing_type = SequencingType.TRIO) :
    height_one_sample opts (some SampleType.CHILD) = opts.height_child := by
  simp [height_one_sample, h]

theorem height_one_sample_trio_parent (opts : PileupImageOptions)
    (h : opts.sequencing_type = SequencingType.TRIO) :
    height_one_sample opts (some SampleType.PARENT) = opts.height_parent := by
  simp [height_one_sample, h]

theorem height_one_sample_single (opts : PileupImageOptions)
    (h : opts.sequencing_type ≠ SequencingType.TRIO) (st : Option SampleType) :
    height_one_sample opts st = opts.height := by
  simp [height_one_sample, h]

theorem length_one_sample_sorted_rows (opts : PileupImageOptions)
    (encodeRow : Read → Option Row) (reads : List Read) (st : Option SampleType) :
    (one_sample_sorted_rows opts encodeRow reads st).length
      = min (max_reads_one_sample opts st) (_row_generator opts encodeRow reads).length := by
  unfold one_sample_sorted_rows
  rw [length_pySorted, length_reservoir_sample]

theorem length_build_pileup_for_one_sample (opts : PileupImageOptions)
    (encodeRow : Read → Option Row) (refRow : Row) (rs : List Read)
    (st : Option SampleType) (g : RandomState)
    (hband : opts.reference_band_height ≤ height_one_sample opts st) :
    (build_pileup_for_one_sample opts encodeRow refRow (some rs) st g).length
      = height_one_sample opts st := by
  have key : ∀ L : List Row,
      L.length = opts.reference_band_height +
        min (height_one_sample opts st - opts.reference_band_height)
          (_row_generator opts encodeRow rs).length →
      (if 0 < height_one_sample opts st - L.length then
        L ++ List.replicate (height_one_sample opts st - L.length) (_empty_image_row opts)
      else L).length = height_one_sample opts st := by
    intro L hh
    by_cases hc : 0 < height_one_sample opts st - L.length
    · rw [if_pos hc]
      simp only [List.length_append, List.length_replicate]
      omega
    · rw [if_neg hc]
      omega
  simp only [build_pileup_for_one_sample]
  exact key _ (by
    simp only [List.length_append, List.length_replicate, List.length_map,
      length_one_sample_sorted_rows, max_reads_eq_height_sub_band])

/-- C1: for every non-None read stream, every sample role and any ambient
random state, `build_pileup_for_one_sample` returns a row block of exactly the
configured target height for that role (`height` in single-sample mode,
`height_child` for the child and `height_parent` for a parent in trio mode),
whether the stream yields zero, fewer-than-capacity, exactly-capacity or
more-than-capacity representable rows.  The reference band must fit in the
role height, the configuration validity condition the spec states as
"sampling capacity must be nonnegative". -/
theorem build_pileup_for_one_sample_height (opts : PileupImageOptions)
    (encodeRow : Read → Option Row) (refRow : Row) (rs : List Read)
    (st : Option SampleType) (g : RandomState)
    (hband : opts.reference_band_height ≤ height_one_sample opts st) :
    (build_pileup_for_one_sample opts encodeRow refRow (some rs) st g).length
      = height_one_sample opts st :=
  length_build_pileup_for_one_sample opts encodeRow refRow rs st g hband

/-- Witness for C1 at a concrete over-capacity input: five representable reads
against capacity 5 - 1 = 4 still yield exactly the 5 configured rows. -/
theorem build_pileup_for_one_sample_height_witness :
    fixOpts.reference_band_height ≤ height_one_sample fixOpts none ∧
    (build_pileup_for_one_sample fixOpts fixEncodePos [[0]] (some fixReads5) none
        (npRandomState 0)).length = height_one_sample fixOpts none :=
  ⟨by decide,
   build_pileup_for_one_sample_height fixOpts fixEncodePos [[0]] fixReads5 none
     (npRandomState 0) (by decide)⟩

/-- C4: sampling is deterministic per invocation.  The assembler constructs
its own generator from the configured `random_seed` (never reading the
process-wide numpy state, modelled here as the explicit `np_random_global`
argument), so its output row block, and in particular the sampled subset and
its final ordering, is a pure function of the configuration, encoder, reads
and role: it is identical across any two ambient random states, hence across
re-runs, call interleavings or retries. -/
theorem build_pileup_for_one_sample_deterministic (opts : PileupImageOptions)
    (encodeRow : Read → Option Row) (refRow : Row) (reads : Option (List Read))
    (st : Option SampleType) (g1 g2 : RandomState) :
    build_pileup_for_one_sample opts encodeRow refRow reads st g1
      = build_pileup_for_one_sample opts encodeRow refRow reads st g2 := rfl

/-- C9 counterexample: with capacity 2, seed 3 and three representable reads
whose rows all share the sort key (0, 7), the sampler retains the third
streamed row in slot 0 and the block orders row [[3]] before row [[2]],
the opposite of their read-stream order; so two retained rows sharing both
haplotype index and alignment position need not preserve their relative input
order once the stream exceeds capacity. -/
theorem one_sample_sorted_rows_counterexample :
    one_sample_sorted_rows ceOpts fixEncodeHp ceReads none
      = [(0, 7, [[3]]), (0, 7, [[2]])] := by decide

/-- C9 (amended): the rows of one sample block are sorted ascending by
(haplotype index, alignment position); the sort is stable with respect to the
order in which the sampler retained the rows (rows tying on the key keep
their reservoir order); and when the stream yields at most capacity-many
representable rows, the reservoir output is exactly the read-stream order, so
input-order stability holds exactly in the no-downsampling case. -/
theorem one_sample_sorted_rows_stable (opts : PileupImageOptions)
    (encodeRow : Read → Option Row) (reads : List Read) (st : Option SampleType) :
    (one_sample_sorted_rows opts encodeRow reads st).Pairwise
      (fun a b => rowKeyLt b a = false)
    ∧ (∀ key : Int × Int,
        (one_sample_sorted_rows opts encodeRow reads st).filter
            (fun t => decide ((t.1, t.2.1) = key))
          = ((reservoir_sample (_row_generator opts encodeRow reads)
              (max_reads_one_sample opts st) (npRandomState opts.random_seed)).1).filter
            (fun t => decide ((t.1, t.2.1) = key)))
    ∧ ((_row_generator opts encodeRow reads).length ≤ max_reads_one_sample opts st →
        (reservoir_sample (_row_generator opts encodeRow reads)
          (max_reads_one_sample opts st) (npRandomState opts.random_seed)).1
          = _row_generator opts encodeRow reads) := by
  refine ⟨?_, ?_, ?_⟩
  · exact pairwise_pySorted rowKeyLt rowKeyLt_asymm rowKeyLt_ntrans _
  · intro key
    unfold one_sample_sorted_rows
    apply filter_pySorted
    intro x y hx hy
    have hx' : (x.1, x.2.1) = key := of_decide_eq_true hx
    have hy' : (y.1, y.2.1) = key := of_decide_eq_true hy
    have hxy : (y.1, y.2.1) = (x.1, x.2.1) := by rw [hx', hy']
    rw [Prod.mk.injEq] at hxy
    obtain ⟨h1, h2⟩ := hxy
    simp only [rowKeyLt, pairLt_false_iff]
    omega
  · intro hle
    exact reservoir_sample_all _ _ _ hle

/-- Witness for C9 at a concrete under-capacity input: three generated rows
against capacity 4 are all kept in stream order, and the block is sorted. -/
theorem one_sample_sorted_rows_stable_witness :
    (_row_generator fixOpts fixEncodePos [⟨5, none⟩, ⟨4, none⟩, ⟨3, none⟩]).length
        ≤ max_reads_one_sample fixOpts none ∧
    (reservoir_sample (_row_generator fixOpts fixEncodePos [⟨5, none⟩, ⟨4, none⟩, ⟨3, none⟩])
        (max_reads_one_sample fixOpts none) (npRandomState fixOpts.random_seed)).1
      = _row_generator fixOpts fixEncodePos [⟨5, none⟩, ⟨4, none⟩, ⟨3, none⟩] ∧
    (one_sample_sorted_rows fixOpts fixEncodePos [⟨5, none⟩, ⟨4, none⟩, ⟨3, none⟩] none).Pairwise
      (fun a b => rowKeyLt b a = false) :=
  ⟨by decide,
   (one_sample_sorted_rows_stable fixOpts fixEncodePos
     [⟨5, none⟩, ⟨4, none⟩, ⟨3, none⟩] none).2.2 (by decide),
   (one_sample_sorted_rows_stable fixOpts fixEncodePos
     [⟨5, none⟩, ⟨4, none⟩, ⟨3, none⟩] none).1⟩


theorem perm_insertSorted (lt : α → α → Bool) (x : α) (l : List α) :
    List.Perm (insertSorted lt x l) (x :: l) := by
  induction l with
  | nil => exact List.Perm.refl [x]
  | cons y ys ih =>
    simp only [insertSorted]
    split
    · exact (ih.cons y).trans (List.Perm.swap x y ys)
    · exact List.Perm.refl (x :: y :: ys)

theorem perm_pySorted (lt : α → α → Bool) (l : List α) :
    List.Perm (pySorted lt l) l := by
  induction l with
  | nil => exact List.Perm.refl []
  | cons x xs ih =>
    exact (perm_insertSorted lt x (pySorted lt xs)).trans (ih.cons x)

theorem dedup_pair_of_ne (a b : String) (h : a ≠ b) : [a, b].dedup = [a, b] := by
  have hb : [b].dedup = [b] := by
    rw [List.dedup_cons_of_not_mem (by simp), List.dedup_nil]
  rw [List.dedup_cons_of_not_mem (by simpa using h), hb]

theorem alt_allele_combinations_no_het (opts : PileupImageOptions) (variant : Variant)
    (h : opts.multi_allelic_mode = MultiAllelicMode.NO_HET_ALT_IMAGES) :
    _alt_allele_combinations opts variant
      = .ok (variant.alternate_bases.map (fun alt => pySorted strLt [alt])) := by
  unfold _alt_allele_combinations
  rw [h]

theorem alt_allele_combinations_add_het (opts : PileupImageOptions) (variant : Variant)
    (h : opts.multi_allelic_mode = MultiAllelicMode.ADD_HET_ALT_IMAGES) :
    _alt_allele_combinations opts variant
      = .ok ((combinations2 (variant.reference_bases :: variant.alternate_bases)).map
          (fun combination => pySorted strLt
            (([combination.1, combination.2].dedup).filter
              (fun a => decide (a ≠ variant.reference_bases))))) := by
  unfold _alt_allele_combinations
  rw [h]

theorem combo_image_single (ref a : String) (h : a ≠ ref) :
    pySorted strLt (([ref, a].dedup).filter (fun s => decide (s ≠ ref))) = [a] := by
  rw [dedup_pair_of_ne ref a (Ne.symm h)]
  have hf : ([ref, a].filter (fun s => decide (s ≠ ref))) = [a] := by
    simp [List.filter_cons, h]
  rw [hf]
  rfl

theorem combo_image_pair (ref a b : String) (ha : a ≠ ref) (hb : b ≠ ref)
    (hab : a ≠ b) :
    pySorted strLt (([a, b].dedup).filter (fun s => decide (s ≠ ref)))
      = pySorted strLt [a, b] := by
  rw [dedup_pair_of_ne a b hab]
  congr 1
  simp [List.filter_cons, ha, hb]

/-- C2: for a variant with `N` distinct alternate alleles, none equal to the
reference (the data model's alternates are an ordered set of non-reference
bases), the enumerator in pairs-covering-het-alt mode yields exactly the `N`
singleton sets (in the alternates' original order, arising from the
reference-with-alternate pairs) followed by one sorted 2-element set per
unordered pair of distinct alternates: `N + C(N, 2) = C(N + 1, 2)` non-empty
sorted duplicate-free sets in total.  In singles-only mode it yields exactly
the `N` singleton sets in the alternates' original order. -/
theorem alt_allele_combinations_count (opts : PileupImageOptions) (variant : Variant)
    (hnd : variant.alternate_bases.Nodup)
    (href : variant.reference_bases ∉ variant.alternate_bases) :
    (opts.multi_allelic_mode = MultiAllelicMode.NO_HET_ALT_IMAGES →
      _alt_allele_combinations opts variant
        = .ok (variant.alternate_bases.map (fun alt => [alt])))
    ∧ (opts.multi_allelic_mode = MultiAllelicMode.ADD_HET_ALT_IMAGES →
      _alt_allele_combinations opts variant
        = .ok (variant.alternate_bases.map (fun alt => [alt]) ++
            (combinations2 variant.alternate_bases).map
              (fun p => pySorted strLt [p.1, p.2]))
      ∧ (variant.alternate_bases.map (fun alt => [alt]) ++
          (combinations2 variant.alternate_bases).map
            (fun p => pySorted strLt [p.1, p.2])).length
          = (variant.alternate_bases.length + 1).choose 2
      ∧ (∀ l ∈ variant.alternate_bases.map (fun alt => [alt]) ++
          (combinations2 variant.alternate_bases).map
            (fun p => pySorted strLt [p.1, p.2]),
          l ≠ [] ∧ l.Nodup ∧ l.Pairwise (fun a b => strLt b a = false))
      ∧ (∀ p ∈ combinations2 variant.alternate_bases,
          (pySorted strLt [p.1, p.2]).length = 2 ∧ p.1 ≠ p.2)) := by
  have hne : ∀ a ∈ variant.alternate_bases, a ≠ variant.reference_bases := by
    intro a ha hcontra
    exact href (hcontra ▸ ha)
  constructor
  · intro hmode
    rw [alt_allele_combinations_no_het opts variant hmode]
    congr 1
  · intro hmode
    refine ⟨?_, ?_, ?_, ?_⟩
    · rw [alt_allele_combinations_add_het opts variant hmode]
      have key :
          (combinations2 (variant.reference_bases :: variant.alternate_bases)).map
            (fun combination => pySorted strLt
              (([combination.1, combination.2].dedup).filter
                (fun a => decide (a ≠ variant.reference_bases))))
          = variant.alternate_bases.map (fun alt => [alt]) ++
            (combinations2 variant.alternate_bases).map
              (fun p => pySorted strLt [p.1, p.2]) := by
        show (variant.alternate_bases.map (fun y => (variant.reference_bases, y)) ++
            combinations2 variant.alternate_bases).map
            (fun combination => pySorted strLt
              (([combination.1, combination.2].dedup).filter
                (fun a => decide (a ≠ variant.reference_bases)))) = _
        rw [List.map_append, List.map_map]
        have e1 : variant.alternate_bases.map
            ((fun combination => pySorted strLt
              (([combination.1, combination.2].dedup).filter
                (fun a => decide (a ≠ variant.reference_bases)))) ∘
              (fun y => (variant.reference_bases, y)))
            = variant.alternate_bases.map (fun alt => [alt]) := by
          apply List.map_congr_left
          intro a ha
          exact combo_image_single variant.reference_bases a (hne a ha)
        have e2 : (combinations2 variant.alternate_bases).map
            (fun combination => pySorted strLt
              (([combination.1, combination.2].dedup).filter
                (fun a => decide (a ≠ variant.reference_bases))))
            = (combinations2 variant.alternate_bases).map
              (fun p => pySorted strLt [p.1, p.2]) := by
          apply List.map_congr_left
          intro p hp
          obtain ⟨hp1, hp2⟩ := mem_combinations2 variant.alternate_bases p hp
          exact combo_image_pair variant.reference_bases p.1 p.2
            (hne p.1 hp1) (hne p.2 hp2)
            (combinations2_ne variant.alternate_bases hnd p hp)
        rw [e1, e2]
      rw [key]
    · simp only [List.length_append, List.length_map, length_combinations2]
      rw [Nat.choose_succ_succ variant.alternate_bases.length 1, Nat.choose_one_right]
    · intro l hl
      rcases List.mem_append.mp hl with hl | hl
      · rcases List.mem_map.mp hl with ⟨a, ha, rfl⟩
        exact ⟨by simp, by simp, by simp⟩
      · rcases List.mem_map.mp hl with ⟨p, hp, rfl⟩
        have hlen2 : (pySorted strLt [p.1, p.2]).length = 2 := by
          simp [length_pySorted]
        refine ⟨?_, ?_, ?_⟩
        · intro hnil
          rw [hnil] at hlen2
          simp at hlen2
        · exact ((perm_pySorted strLt [p.1, p.2]).symm.nodup_iff).mp
            (by simp [combinations2_ne variant.alternate_bases hnd p hp])
        · exact pairwise_pySorted strLt strLt_asymm strLt_ntrans [p.1, p.2]
    · intro p hp
      exact ⟨by simp [length_pySorted],
        combinations2_ne variant.alternate_bases hnd p hp⟩

/-- Witness for C2 at the spec's worked example: reference A with alternates
C and G yields exactly the two singleton sets followed by the het-alt pair,
and singles-only mode yields just the two singletons. -/
theorem alt_allele_combinations_count_witness :
    _alt_allele_combinations fixOpts fixVariant = .ok [["C"], ["G"], ["C", "G"]] ∧
    _alt_allele_combinations fixOptsNoHet fixVariant = .ok [["C"], ["G"]] := by
  have h1 := (alt_allele_combinations_count fixOpts fixVariant (by decide) (by decide)).2 rfl
  have h2 := (alt_allele_combinations_count fixOptsNoHet fixVariant (by decide) (by decide)).1 rfl
  have e1 : fixVariant.alternate_bases.map (fun alt => [alt]) ++
      (combinations2 fixVariant.alternate_bases).map
        (fun p => pySorted strLt [p.1, p.2]) = [["C"], ["G"], ["C", "G"]] := by decide
  have e2 : fixVariant.alternate_bases.map (fun alt => [alt]) = [["C"], ["G"]] := by decide
  exact ⟨h1.1.trans (by rw [e1]), h2.trans (by rw [e2])⟩

/-- C7: supplying one alt image yields exactly the same combined result as
supplying that image twice, for every representation string and all images:
the combiner duplicates a singleton alt list before any further processing,
so in particular the law holds for the recognized modes on equal-shape
images. -/
theorem represent_alt_aligned_single_alt_dup (representation : String)
    (ref_image b : Image) :
    _represent_alt_aligned_pileups representation ref_image [b]
      = _represent_alt_aligned_pileups representation ref_image [b, b] := rfl

/-- C6 counterexample: on 1 x 1 x 1 images of equal shape, diff_channels mode
indexes channel 5 of a 1-channel alt image, so the combiner raises an
IndexError instead of returning an image of shape (h, w, c + 2): the claimed
shape law fails for channel counts below 6. -/
theorem represent_alt_aligned_diff_counterexample :
    _represent_alt_aligned_pileups "diff_channels" [[[0]]] [[[[0]]]]
      = .error ("IndexError: channel index out of bounds") := rfl

theorem represent_two_eq (representation : String) (ref_image a0 a1 : Image) :
    _represent_alt_aligned_pileups representation ref_image [a0, a1]
      = (if ¬(imgShape ref_image = imgShape a0 ∧ imgShape a0 = imgShape a1) then
          .error ("Pileup images must be the same shape to be combined.")
        else if representation = "rows" then
          .ok (ref_image ++ a0 ++ a1)
        else if representation = "base_channels" then
          match channel_slice a0 0, channel_slice a1 0 with
          | some ca, some cb =>
            .ok (np_stack_axis2
              ((List.range (imgShape ref_image).2.2).filterMap (channel_slice ref_image) ++ [ca, cb]))
          | _, _ => .error ("IndexError: channel index out of bounds")
        else if representation = "diff_channels" then
          match channel_slice a0 5, channel_slice a1 5 with
          | some ca, some cb =>
            .ok (np_stack_axis2
              ((List.range (imgShape ref_image).2.2).filterMap (channel_slice ref_image) ++ [ca, cb]))
          | _, _ => .error ("IndexError: channel index out of bounds")
        else
          .error ("alt_aligned_pileups received invalid value. Must be one of rows, base_channels, or diff_channels.")) := rfl

theorem stack_combined_spec (ref_image a0 a1 : Image) (h w c k : Nat)
    (hr : IsShape ref_image h w c) (h0 : IsShape a0 h w c) (h1 : IsShape a1 h w c)
    (hh : 0 < h) (hw : 0 < w) (hk : k < c) :
    IsShape (np_stack_axis2
      ((List.range (imgShape ref_image).2.2).filterMap (channel_slice ref_image) ++
        [slice_data a0 k, slice_data a1 k])) h w (c + 2)
    ∧ ∀ i j, i < h → j < w →
        (((np_stack_axis2
          ((List.range (imgShape ref_image).2.2).filterMap (channel_slice ref_image) ++
            [slice_data a0 k, slice_data a1 k])).getD i []).getD j [])
          = ((ref_image.getD i []).getD j []) ++
              [((a0.getD i []).getD j []).getD k 0,
               ((a1.getD i []).getD j []).getD k 0] := by
  have hc2 : (imgShape ref_image).2.2 = c := imgShape_channels ref_image h w c hr hh hw
  rw [hc2]
  have hfm : (List.range c).filterMap (channel_slice ref_image)
      = (List.range c).map (fun kk => slice_data ref_image kk) :=
    filterMap_eq_map_of_some _ _ _
      (fun kk hkk => channel_slice_of_lt ref_image h w c kk hr hh hw (List.mem_range.mp hkk))
  rw [hfm]
  have hne : (List.range c).map (fun kk => slice_data ref_image kk) ++
      [slice_data a0 k, slice_data a1 k] ≠ [] := by simp
  have hsh : ∀ m ∈ (List.range c).map (fun kk => slice_data ref_image kk) ++
      [slice_data a0 k, slice_data a1 k],
      m.length = h ∧ ∀ row ∈ m, row.length = w := by
    intro m hm
    rcases List.mem_append.mp hm with hm | hm
    · rcases List.mem_map.mp hm with ⟨kk, hkk, rfl⟩
      exact slice_data_shape ref_image h w c kk hr
    · rcases List.mem_cons.mp hm with rfl | hm
      · exact slice_data_shape a0 h w c k h0
      · rcases List.mem_cons.mp hm with rfl | hm
        · exact slice_data_shape a1 h w c k h1
        · simp at hm
  constructor
  · have hstack := np_stack_isShape _ h w hne hsh
    have hlen : ((List.range c).map (fun kk => slice_data ref_image kk) ++
        [slice_data a0 k, slice_data a1 k]).length = c + 2 := by simp
    rw [hlen] at hstack
    exact hstack
  · intro i j hi hj
    rw [np_stack_getD _ h w i j hne hsh hi hj]
    have hrlen : ref_image.length = h := hr.1
    have hrow : ref_image.getD i [] ∈ ref_image :=
      getD_mem_of_lt ref_image i [] (by omega)
    have hwlen : (ref_image.getD i []).length = w := (hr.2 _ hrow).1
    have hpx_mem : (ref_image.getD i []).getD j [] ∈ ref_image.getD i [] :=
      getD_mem_of_lt _ j [] (by omega)
    have hpxlen : ((ref_image.getD i []).getD j []).length = c :=
      (hr.2 _ hrow).2 _ hpx_mem
    rw [List.map_append, List.map_map]
    have e1 : (List.range c).map
        ((fun m => (m.getD i []).getD j 0) ∘ fun kk => slice_data ref_image kk)
        = (ref_image.getD i []).getD j [] := by
      have hcongr : ∀ kk ∈ List.range c,
          ((fun m => (m.getD i []).getD j 0) ∘ fun kk => slice_data ref_image kk) kk
            = ((ref_image.getD i []).getD j []).getD kk 0 := by
        intro kk hkk
        exact slice_data_getD ref_image h w c kk i j hr hi hj
      rw [List.map_congr_left hcongr, ← hpxlen, map_getD_range_self]
    rw [e1]
    have e2 : ((slice_data a0 k).getD i []).getD j 0
        = ((a0.getD i []).getD j []).getD k 0 :=
      slice_data_getD a0 h w c k i j h0 hi hj
    have e3 : ((slice_data a1 k).getD i []).getD j 0
        = ((a1.getD i []).getD j []).getD k 0 :=
      slice_data_getD a1 h w c k i j h1 hi hj
    simp only [List.map_cons, List.map_nil, e2, e3]

theorem represent_two_shapes (representation : String) (ref_image a0 a1 : Image)
    (h w c : Nat) (hr : IsShape ref_image h w c) (h0 : IsShape a0 h w c)
    (h1 : IsShape a1 h w c) (hh : 0 < h) (hw : 0 < w) :
    (representation = "rows" →
      _represent_alt_aligned_pileups representation ref_image [a0, a1]
        = .ok (ref_image ++ a0 ++ a1)
      ∧ IsShape (ref_image ++ a0 ++ a1) (3 * h) w c)
    ∧ (representation = "base_channels" → 0 < c →
      ∃ out, _represent_alt_aligned_pileups representation ref_image [a0, a1] = .ok out
        ∧ IsShape out h w (c + 2)
        ∧ ∀ i j, i < h → j < w →
            ((out.getD i []).getD j [])
              = ((ref_image.getD i []).getD j []) ++
                  [((a0.getD i []).getD j []).getD 0 0,
                   ((a1.getD i []).getD j []).getD 0 0])
    ∧ (representation = "diff_channels" → 6 ≤ c →
      ∃ out, _represent_alt_aligned_pileups representation ref_image [a0, a1] = .ok out
        ∧ IsShape out h w (c + 2)
        ∧ ∀ i j, i < h → j < w →
            ((out.getD i []).getD j [])
              = ((ref_image.getD i []).getD j []) ++
                  [((a0.getD i []).getD j []).getD 5 0,
                   ((a1.getD i []).getD j []).getD 5 0]) := by
  have hsh : imgShape ref_image = imgShape a0 ∧ imgShape a0 = imgShape a1 :=
    ⟨imgShape_congr _ _ h w c hr h0, imgShape_congr _ _ h w c h0 h1⟩
  refine ⟨?_, ?_, ?_⟩
  · rintro rfl
    rw [represent_two_eq, if_neg (not_not_intro hsh), if_pos rfl]
    refine ⟨rfl, ?_⟩
    have hstep := isShape_append _ _ _ _ _ _ (isShape_append _ _ _ _ _ _ hr h0) h1
    rw [show 3 * h = h + h + h by ring]
    exact hstep
  · rintro rfl hc
    rw [represent_two_eq, if_neg (not_not_intro hsh), if_neg (by decide), if_pos rfl]
    rw [channel_slice_of_lt a0 h w c 0 h0 hh hw hc,
      channel_slice_of_lt a1 h w c 0 h1 hh hw hc]
    obtain ⟨hshape, hcontent⟩ := stack_combined_spec ref_image a0 a1 h w c 0 hr h0 h1 hh hw hc
    exact ⟨_, rfl, hshape, hcontent⟩
  · rintro rfl hc6
    have hk : 5 < c := by omega
    rw [represent_two_eq, if_neg (not_not_intro hsh), if_neg (by decide),
      if_neg (by decide), if_pos rfl]
    rw [channel_slice_of_lt a0 h w c 5 h0 hh hw hk,
      channel_slice_of_lt a1 h w c 5 h1 hh hw hk]
    obtain ⟨hshape, hcontent⟩ := stack_combined_spec ref_image a0 a1 h w c 5 hr h0 h1 hh hw hk
    exact ⟨_, rfl, hshape, hcontent⟩

/-- C6 (amended): for a reference image and one or two alt images all of
shape (h, w, c) with h, w positive, the combiner returns the vertical
concatenation [reference, alt1, alt2] of shape (3h, w, c) in rows mode; in
base_channels mode (provided c is at least 1, since channel 0 of the alt
images is taken) it returns an image of shape (h, w, c + 2) whose pixel
(i, j) is the reference pixel's channels followed by channel 0 of alt1 and of
alt2; and in diff_channels mode (provided c is at least 6, since channel 5 is
taken, the combiner raising an IndexError for smaller c as the counterexample
shows) likewise with channel 5.  A single supplied alt image plays the role
of both alts. -/
theorem represent_alt_aligned_shapes (representation : String)
    (ref_image a0 a1 : Image) (alt_images : List Image) (h w c : Nat)
    (halts : (alt_images = [a0] ∧ a1 = a0) ∨ alt_images = [a0, a1])
    (hr : IsShape ref_image h w c) (h0 : IsShape a0 h w c)
    (h1 : IsShape a1 h w c) (hh : 0 < h) (hw : 0 < w) :
    (representation = "rows" →
      _represent_alt_aligned_pileups representation ref_image alt_images
        = .ok (ref_image ++ a0 ++ a1)
      ∧ IsShape (ref_image ++ a0 ++ a1) (3 * h) w c)
    ∧ (representation = "base_channels" → 0 < c →
      ∃ out, _represent_alt_aligned_pileups representation ref_image alt_images = .ok out
        ∧ IsShape out h w (c + 2)
        ∧ ∀ i j, i < h → j < w →
            ((out.getD i []).getD j [])
              = ((ref_image.getD i []).getD j []) ++
                  [((a0.getD i []).getD j []).getD 0 0,
                   ((a1.getD i []).getD j []).getD 0 0])
    ∧ (representation = "diff_channels" → 6 ≤ c →
      ∃ out, _represent_alt_aligned_pileups representation ref_image alt_images = .ok out
        ∧ IsShape out h w (c + 2)
        ∧ ∀ i j, i < h → j < w →
            ((out.getD i []).getD j [])
              = ((ref_image.getD i []).getD j []) ++
                  [((a0.getD i []).getD j []).getD 5 0,
                   ((a1.getD i []).getD j []).getD 5 0]) := by
  rcases halts with ⟨rfl, rfl⟩ | rfl
  · exact represent_two_shapes representation ref_image a1 a1 h w c hr h0 h0 hh hw
  · exact represent_two_shapes representation ref_image a0 a1 h w c hr h0 h1 hh hw

/-- Witness for C6 on concrete 1 x 1 x 6 images: rows mode concatenates the
three images and diff_channels mode produces a 1 x 1 x 8 image. -/
theorem represent_alt_aligned_shapes_witness :
    _represent_alt_aligned_pileups "rows" fixImgRef [fixImgA0, fixImgA1]
      = .ok (fixImgRef ++ fixImgA0 ++ fixImgA1) ∧
    (∃ out, _represent_alt_aligned_pileups "diff_channels" fixImgRef [fixImgA0, fixImgA1]
      = .ok out ∧ IsShape out 1 1 8) := by
  have hrows := represent_alt_aligned_shapes "rows" fixImgRef fixImgA0 fixImgA1
    [fixImgA0, fixImgA1] 1 1 6 (Or.inr rfl)
    (by decide) (by decide) (by decide) (by decide) (by decide)
  have hdiff := represent_alt_aligned_shapes "diff_channels" fixImgRef fixImgA0 fixImgA1
    [fixImgA0, fixImgA1] 1 1 6 (Or.inr rfl)
    (by decide) (by decide) (by decide) (by decide) (by decide)
  refine ⟨(hrows.1 rfl).1, ?_⟩
  obtain ⟨out, ho, hshape, hcontent⟩ := hdiff.2.2 rfl (by omega)
  exact ⟨out, ho, hshape⟩

theorem build_pileup_checks_pass (pic : PileupImageCreator) (dv_call : DeepVariantCall)
    (refbases : String) (reads : Option (List Read)) (alt_alleles : List String)
    (reads_parent1 reads_parent2 : Option (List Read)) (custom_ref : Bool)
    (g : RandomState)
    (h1 : refbases.length = pic.options.width)
    (h2 : alt_alleles ≠ [])
    (h3 : ∀ a ∈ alt_alleles, a ∈ dv_call.variant.alternate_bases)
    (h4 : custom_ref = true ∨
      pyCharAt refbases (_compute_half_width pic.options.width)
        = pyCharAt dv_call.variant.reference_bases 0) :
    build_pileup pic dv_call refbases reads alt_alleles reads_parent1 reads_parent2
      custom_ref g
      = np_vstack (build_pileup_rows pic.options
          (fun read => pic.encode_read dv_call refbases read
            (dv_call.variant.start - (_compute_half_width pic.options.width : Int))
            alt_alleles)
          (pic.encode_reference refbases) reads reads_parent1 reads_parent2 g) := by
  simp only [build_pileup]
  rw [if_neg (by simp [h1])]
  rw [if_neg h2]
  rw [if_neg (by
    simp only [List.any_eq_true, decide_eq_true_eq]
    rintro ⟨a, ha, han⟩
    exact han (h3 a ha))]
  rw [if_neg (by
    rintro ⟨hc, hmis⟩
    rcases h4 with h4 | h4
    · rw [h4] at hc
      exact absurd hc (by simp)
    · exact hmis h4)]

/-- C3: once `build_pileup` has validated its arguments, the sample blocks
are always stacked vertically in the fixed order parent1, child, parent2:
in trio mode with all three streams non-None the result is exactly the
concatenation of the parent1, child and parent2 blocks (parent1 strictly
above the child, parent2 strictly below), with
`height_parent + height_child + height_parent` rows in total; outside trio
mode only the child block appears, even when parent streams are supplied,
with exactly `height` rows. -/
theorem build_pileup_trio_stacking (pic : PileupImageCreator)
    (dv_call : DeepVariantCall) (refbases : String) (alt_alleles : List String)
    (rs rs1 rs2 : List Read) (custom_ref : Bool) (g : RandomState)
    (h1 : refbases.length = pic.options.width)
    (h2 : alt_alleles ≠ [])
    (h3 : ∀ a ∈ alt_alleles, a ∈ dv_call.variant.alternate_bases)
    (h4 : custom_ref = true ∨
      pyCharAt refbases (_compute_half_width pic.options.width)
        = pyCharAt dv_call.variant.reference_bases 0)
    (hbc : pic.options.reference_band_height ≤ pic.options.height_child)
    (hbp : pic.options.reference_band_height ≤ pic.options.height_parent)
    (hb : pic.options.reference_band_height ≤ pic.options.height)
    (hc0 : 0 < pic.options.height_child)
    (hh0 : 0 < pic.options.height) :
    (pic.options.sequencing_type = SequencingType.TRIO →
      build_pileup pic dv_call refbases (some rs) alt_alleles (some rs1) (some rs2)
          custom_ref g
        = .ok (build_pileup_for_one_sample pic.options
            (fun read => pic.encode_read dv_call refbases read
              (dv_call.variant.start - (_compute_half_width pic.options.width : Int))
              alt_alleles)
            (pic.encode_reference refbases) (some rs1) (some SampleType.PARENT) g ++
          build_pileup_for_one_sample pic.options
            (fun read => pic.encode_read dv_call refbases read
              (dv_call.variant.start - (_compute_half_width pic.options.width : Int))
              alt_alleles)
            (pic.encode_reference refbases) (some rs) (some SampleType.CHILD) g ++
          build_pileup_for_one_sample pic.options
            (fun read => pic.encode_read dv_call refbases read
              (dv_call.variant.start - (_compute_half_width pic.options.width : Int))
              alt_alleles)
            (pic.encode_reference refbases) (some rs2) (some SampleType.PARENT) g)
      ∧ (build_pileup_for_one_sample pic.options
            (fun read => pic.encode_read dv_call refbases read
              (dv_call.variant.start - (_compute_half_width pic.options.width : Int))
              alt_alleles)
            (pic.encode_reference refbases) (some rs1) (some SampleType.PARENT) g ++
          build_pileup_for_one_sample pic.options
            (fun read => pic.encode_read dv_call refbases read
              (dv_call.variant.start - (_compute_half_width pic.options.width : Int))
              alt_alleles)
            (pic.encode_reference refbases) (some rs) (some SampleType.CHILD) g ++
          build_pileup_for_one_sample pic.options
            (fun read => pic.encode_read dv_call refbases read
              (dv_call.variant.start - (_compute_half_width pic.options.width : Int))
              alt_alleles)
            (pic.encode_reference refbases) (some rs2) (some SampleType.PARENT) g).length
          = pic.options.height_parent + pic.options.height_child +
              pic.options.height_parent)
    ∧ (pic.options.sequencing_type ≠ SequencingType.TRIO →
      build_pileup pic dv_call refbases (some rs) alt_alleles (some rs1) (some rs2)
          custom_ref g
        = .ok (build_pileup_for_one_sample pic.options
            (fun read => pic.encode_read dv_call refbases read
              (dv_call.variant.start - (_compute_half_width pic.options.width : Int))
              alt_alleles)
            (pic.encode_reference refbases) (some rs) (some SampleType.CHILD) g)
      ∧ (build_pileup_for_one_sample pic.options
            (fun read => pic.encode_read dv_call refbases read
              (dv_call.variant.start - (_compute_half_width pic.options.width : Int))
              alt_alleles)
            (pic.encode_reference refbases) (some rs) (some SampleType.CHILD) g).length
          = pic.options.height) := by
  have hpass := build_pileup_checks_pass pic dv_call refbases (some rs) alt_alleles
    (some rs1) (some rs2) custom_ref g h1 h2 h3 h4
  constructor
  · intro htrio
    have lP1 : (build_pileup_for_one_sample pic.options
        (fun read => pic.encode_read dv_call refbases read
          (dv_call.variant.start - (_compute_half_width pic.options.width : Int))
          alt_alleles)
        (pic.encode_reference refbases) (some rs1) (some SampleType.PARENT) g).length
        = pic.options.height_parent := by
      rw [length_build_pileup_for_one_sample _ _ _ _ _ _
        (by rw [height_one_sample_trio_parent _ htrio]; exact hbp)]
      exact height_one_sample_trio_parent _ htrio
    have lP2 : (build_pileup_for_one_sample pic.options
        (fun read => pic.encode_read dv_call refbases read
          (dv_call.variant.start - (_compute_half_width pic.options.width : Int))
          alt_alleles)
        (pic.encode_reference refbases) (some rs2) (some SampleType.PARENT) g).length
        = pic.options.height_parent := by
      rw [length_build_pileup_for_one_sample _ _ _ _ _ _
        (by rw [height_one_sample_trio_parent _ htrio]; exact hbp)]
      exact height_one_sample_trio_parent _ htrio
    have lC : (build_pileup_for_one_sample pic.options
        (fun read => pic.encode_read dv_call refbases read
          (dv_call.variant.start - (_compute_half_width pic.options.width : Int))
          alt_alleles)
        (pic.encode_reference refbases) (some rs) (some SampleType.CHILD) g).length
        = pic.options.height_child := by
      rw [length_build_pileup_for_one_sample _ _ _ _ _ _
        (by rw [height_one_sample_trio_child _ htrio]; exact hbc)]
      exact height_one_sample_trio_child _ htrio
    have hrows : build_pileup_rows pic.options
        (fun read => pic.encode_read dv_call refbases read
          (dv_call.variant.start - (_compute_half_width pic.options.width : Int))
          alt_alleles)
        (pic.encode_reference refbases) (some rs) (some rs1) (some rs2) g
        = build_pileup_for_one_sample pic.options
            (fun read => pic.encode_read dv_call refbases read
              (dv_call.variant.start - (_compute_half_width pic.options.width : Int))
              alt_alleles)
            (pic.encode_reference refbases) (some rs1) (some SampleType.PARENT) g ++
          build_pileup_for_one_sample pic.options
            (fun read => pic.encode_read dv_call refbases read
              (dv_call.variant.start - (_compute_half_width pic.options.width : Int))
              alt_alleles)
            (pic.encode_reference refbases) (some rs) (some SampleType.CHILD) g ++
          build_pileup_for_one_sample pic.options
            (fun read => pic.encode_read dv_call refbases read
              (dv_call.variant.start - (_compute_half_width pic.options.width : Int))
              alt_alleles)
            (pic.encode_reference refbases) (some rs2) (some SampleType.PARENT) g := by
      unfold build_pileup_rows
      rw [if_pos htrio, if_pos htrio]
    have hlen : (build_pileup_for_one_sample pic.options
        (fun read => pic.encode_read dv_call refbases read
          (dv_call.variant.start - (_compute_half_width pic.options.width : Int))
          alt_alleles)
        (pic.encode_reference refbases) (some rs1) (some SampleType.PARENT) g ++
      build_pileup_for_one_sample pic.options
        (fun read => pic.encode_read dv_call refbases read
          (dv_call.variant.start - (_compute_half_width pic.options.width : Int))
          alt_alleles)
        (pic.encode_reference refbases) (some rs) (some SampleType.CHILD) g ++
      build_pileup_for_one_sample pic.options
        (fun read => pic.encode_read dv_call refbases read
          (dv_call.variant.start - (_compute_half_width pic.options.width : Int))
          alt_alleles)
        (pic.encode_reference refbases) (some rs2) (some SampleType.PARENT) g).length
        = pic.options.height_parent + pic.options.height_child +
            pic.options.height_parent := by
      simp only [List.length_append, lP1, lC, lP2]
    have hne : build_pileup_for_one_sample pic.options
        (fun read => pic.encode_read dv_call refbases read
          (dv_call.variant.start - (_compute_half_width pic.options.width : Int))
          alt_alleles)
        (pic.encode_reference refbases) (some rs1) (some SampleType.PARENT) g ++
      build_pileup_for_one_sample pic.options
        (fun read => pic.encode_read dv_call refbases read
          (dv_call.variant.start - (_compute_half_width pic.options.width : Int))
          alt_alleles)
        (pic.encode_reference refbases) (some rs) (some SampleType.CHILD) g ++
      build_pileup_for_one_sample pic.options
        (fun read => pic.encode_read dv_call refbases read
          (dv_call.variant.start - (_compute_half_width pic.options.width : Int))
          alt_alleles)
        (pic.encode_reference refbases) (some rs2) (some SampleType.PARENT) g ≠ [] := by
      intro hnil
      rw [hnil] at hlen
      simp at hlen
      omega
    refine ⟨?_, hlen⟩
    rw [hpass, hrows]
    unfold np_vstack
    rw [if_neg hne]
  · intro hsingle
    have lC : (build_pileup_for_one_sample pic.options
        (fun read => pic.encode_read dv_call refbases read
          (dv_call.variant.start - (_compute_half_width pic.options.width : Int))
          alt_alleles)
        (pic.encode_reference refbases) (some rs) (some SampleType.CHILD) g).length
        = pic.options.height := by
      rw [length_build_pileup_for_one_sample _ _ _ _ _ _
        (by rw [height_one_sample_single _ hsingle (some SampleType.CHILD)]; exact hb)]
      exact height_one_sample_single _ hsingle (some SampleType.CHILD)
    have hrows : build_pileup_rows pic.options
        (fun read => pic.encode_read dv_call refbases read
          (dv_call.variant.start - (_compute_half_width pic.options.width : Int))
          alt_alleles)
        (pic.encode_reference refbases) (some rs) (some rs1) (some rs2) g
        = build_pileup_for_one_sample pic.options
            (fun read => pic.encode_read dv_call refbases read
              (dv_call.variant.start - (_compute_half_width pic.options.width : Int))
              alt_alleles)
            (pic.encode_reference refbases) (some rs) (some SampleType.CHILD) g := by
      unfold build_pileup_rows
      rw [if_neg hsingle, if_neg hsingle]
      simp
    have hne : build_pileup_for_one_sample pic.options
        (fun read => pic.encode_read dv_call refbases read
          (dv_call.variant.start - (_compute_half_width pic.options.width : Int))
          alt_alleles)
        (pic.encode_reference refbases) (some rs) (some SampleType.CHILD) g ≠ [] := by
      intro hnil
      rw [hnil] at lC
      simp at lC
      omega
    refine ⟨?_, lC⟩
    rw [hpass, hrows]
    unfold np_vstack
    rw [if_neg hne]

/-- Witness for C3: a concrete trio call stacks parent1, child, parent2 and
has 2 + 3 + 2 rows. -/
theorem build_pileup_trio_stacking_witness :
    ∃ img, build_pileup fixTrioPic fixDvC "ACA" (some []) ["C"] (some []) (some [])
        false (npRandomState 0) = .ok img ∧ img.length = 2 + 3 + 2 := by
  have h := (build_pileup_trio_stacking fixTrioPic fixDvC "ACA" ["C"] [] [] []
    false (npRandomState 0)
    (by decide) (by decide) (by decide) (Or.inr (by decide))
    (by decide) (by decide) (by decide) (by decide) (by decide)).1 rfl
  exact ⟨_, h.1, h.2⟩

/-- C10: with no explicit `sam_reader` argument, a `parent` value other than
None, 1 or 2 makes `get_reads` raise a ValueError before consulting any read
source (the result is this error for every creator, whatever its readers
return); `parent = None` queries the child reader, `parent = 1` the parent1
reader and `parent = 2` the parent2 reader, each over the variant's interval
widened by the configured overlap buffer. -/
theorem get_reads_parent_selection (pic : PileupImageCreator) (variant : Variant)
    (p : Int) (r1 r2 : SamReader)
    (hp1 : p ≠ 1) (hp2 : p ≠ 2)
    (hr1 : pic.sam_reader_parent1 = some r1)
    (hr2 : pic.sam_reader_parent2 = some r2) :
    get_reads pic variant none (some p)
      = .error ("parent must be None for child, 1, or 2.")
    ∧ get_reads pic variant none none
      = .ok (pic.sam_reader (make_range variant.reference_name
          (variant.start - pic.options.read_overlap_buffer_bp)
          (variant.«end» + pic.options.read_overlap_buffer_bp)))
    ∧ get_reads pic variant none (some 1)
      = .ok (r1 (make_range variant.reference_name
          (variant.start - pic.options.read_overlap_buffer_bp)
          (variant.«end» + pic.options.read_overlap_buffer_bp)))
    ∧ get_reads pic variant none (some 2)
      = .ok (r2 (make_range variant.reference_name
          (variant.start - pic.options.read_overlap_buffer_bp)
          (variant.«end» + pic.options.read_overlap_buffer_bp))) := by
  refine ⟨?_, ?_, ?_, ?_⟩
  · simp only [get_reads]
    rw [if_neg hp1, if_neg hp2]
  · simp only [get_reads]
  · simp only [get_reads]
    simp [hr1]
  · simp only [get_reads]
    simp [hr2]

/-- Witness for C10 at a concrete creator and variant, with parent value 7. -/
theorem get_reads_parent_selection_witness :
    get_reads fixPic fixVariant none (some 7)
      = .error ("parent must be None for child, 1, or 2.")
    ∧ get_reads fixPic fixVariant none (some 1)
      = .ok (fixSamEmpty (make_range fixVariant.reference_name
          (fixVariant.start - fixPic.options.read_overlap_buffer_bp)
          (fixVariant.«end» + fixPic.options.read_overlap_buffer_bp))) := by
  have h := get_reads_parent_selection fixPic fixVariant 7 fixSamEmpty fixSamEmpty
    (by decide) (by decide) rfl rfl
  exact ⟨h.1, h.2.2.1⟩

/-- C8 counterexample: a call that passes all four validations (window width
matches, allele subset non-empty and contained in the variant's alternates,
anchor base matching) but supplies a None read stream outside trio mode still
raises: the assembled row list is empty and the final np.vstack fails.  So
the four listed conditions do not exhaust the error cases of build_pileup. -/
theorem build_pileup_error_counterexample :
    isError (build_pileup fixPic fixDvC "ACA" none ["C"] none none false
      (npRandomState 0)) = true
    ∧ ¬("ACA".length ≠ fixPic.options.width)
    ∧ (["C"] : List String) ≠ []
    ∧ ¬(∃ a ∈ (["C"] : List String), a ∉ fixDvC.variant.alternate_bases)
    ∧ ¬((false = false) ∧ pyCharAt "ACA" (_compute_half_width fixPic.options.width)
        ≠ pyCharAt fixDvC.variant.reference_bases 0) := by
  decide

/-- C8 (amended): `build_pileup` returns an error exactly when the
reference-window string's length differs from the configured width, or the
alt-allele subset is empty, or some element of the subset is not among the
variant's alternate bases, or `custom_ref` is false and the base at
`half_width` of the window differs from the first character of the variant's
reference bases, or the assembled row list is empty (for example when every
included read stream is None), in which case the final np.vstack raises.
The four validations fire in that order before any rows are built. -/
theorem build_pileup_error_iff (pic : PileupImageCreator) (dv_call : DeepVariantCall)
    (refbases : String) (reads : Option (List Read)) (alt_alleles : List String)
    (reads_parent1 reads_parent2 : Option (List Read)) (custom_ref : Bool)
    (g : RandomState)
    (hw : 0 < pic.options.width)
    (href : dv_call.variant.reference_bases ≠ "") :
    isError (build_pileup pic dv_call refbases reads alt_alleles reads_parent1
        reads_parent2 custom_ref g) = true
      ↔ (refbases.length ≠ pic.options.width
        ∨ alt_alleles = []
        ∨ (∃ a ∈ alt_alleles, a ∉ dv_call.variant.alternate_bases)
        ∨ (custom_ref = false ∧
            pyCharAt refbases (_compute_half_width pic.options.width)
              ≠ pyCharAt dv_call.variant.reference_bases 0)
        ∨ build_pileup_rows pic.options
            (fun read => pic.encode_read dv_call refbases read
              (dv_call.variant.start - (_compute_half_width pic.options.width : Int))
              alt_alleles)
            (pic.encode_reference refbases) reads reads_parent1 reads_parent2 g
            = []) := by
  simp only [build_pileup]
  by_cases c1 : refbases.length ≠ pic.options.width
  · rw [if_pos c1]
    simp [isError, c1]
  · rw [if_neg c1]
    by_cases c2 : alt_alleles = []
    · rw [if_pos c2]
      simp [isError, c2]
    · rw [if_neg c2]
      by_cases c3 : alt_alleles.any
          (fun alt => decide (alt ∉ dv_call.variant.alternate_bases)) = true
      · rw [if_pos c3]
        have c3' : ∃ a ∈ alt_alleles, a ∉ dv_call.variant.alternate_bases := by
          simpa [List.any_eq_true] using c3
        simp [isError, c3']
      · rw [if_neg c3]
        have hc3' : ¬∃ a ∈ alt_alleles, a ∉ dv_call.variant.alternate_bases := by
          simpa [List.any_eq_true] using c3
        by_cases c4 : custom_ref = false ∧
            pyCharAt refbases (_compute_half_width pic.options.width)
              ≠ pyCharAt dv_call.variant.reference_bases 0
        · rw [if_pos c4]
          simp [isError, c4]
        · rw [if_neg c4]
          unfold np_vstack
          by_cases c5 : build_pileup_rows pic.options
              (fun read => pic.encode_read dv_call refbases read
                (dv_call.variant.start - (_compute_half_width pic.options.width : Int))
                alt_alleles)
              (pic.encode_reference refbases) reads reads_parent1 reads_parent2 g
              = []
          · rw [if_pos c5]
            simp [isError, c5]
          · rw [if_neg c5]
            simp [isError, c1, c2, hc3', c4, c5]

/-- Witness for C8: a window of the wrong width makes build_pileup error. -/
theorem build_pileup_error_iff_witness :
    isError (build_pileup fixPic fixDvC "AC" (some []) ["C"] (some []) (some [])
      false (npRandomState 0)) = true :=
  (build_pileup_error_iff fixPic fixDvC "AC" (some []) ["C"] (some []) (some [])
    false (npRandomState 0) (by decide) (by decide)).mpr (Or.inl (by decide))

/-- C5 counterexample: with a valid reference window and a variant carrying no
alternate alleles, the orchestrator returns an empty image list even though
the no-valid-window early exit is not taken (that exit returns the None
sentinel, not a list), so the early exit is not the only source of an empty
image list. -/
theorem create_pileup_images_empty_counterexample :
    create_pileup_images fixPic fixDvNoAlt none none none none (npRandomState 0)
      = .ok (some []) ∧
    get_reference_bases fixPic fixDvNoAlt.variant = some "AAA" := by
  constructor <;> rfl

/-- C5 (amended): when the reference window around the candidate variant is
invalid (off the contig), `create_pileup_images` returns the None sentinel --
no images, not an exception and not an empty list -- before touching any read
source; and whenever it returns an actual image list, that list is empty if
and only if the variant has no alternate alleles, so for every variant with
at least one alternate the list is non-empty and the None sentinel is the
only no-images outcome. -/
theorem create_pileup_images_no_window (pic : PileupImageCreator)
    (dv_call : DeepVariantCall)
    (haplotype_alignments : Option (HapDict (List Read)))
    (haplotype_sequences : Option (HapDict String))
    (parent1_hap_alns parent2_hap_alns : Option (HapDict (List Read)))
    (g : RandomState) :
    (pic.ref_reader.is_valid (make_range dv_call.variant.reference_name
        (dv_call.variant.start - (_compute_half_width pic.options.width : Int))
        ((dv_call.variant.start - (_compute_half_width pic.options.width : Int)) +
          (pic.options.width : Int))) = false →
      create_pileup_images pic dv_call haplotype_alignments haplotype_sequences
        parent1_hap_alns parent2_hap_alns g = .ok none)
    ∧ (∀ l, create_pileup_images pic dv_call haplotype_alignments
        haplotype_sequences parent1_hap_alns parent2_hap_alns g = .ok (some l) →
        (l = [] ↔ dv_call.variant.alternate_bases = [])) := by
  constructor
  · intro hinv
    simp only [create_pileup_images, get_reference_bases, hinv]
    simp
  · intro l h
    simp only [create_pileup_images] at h
    split at h
    · cases h
    · rename_i s hrb
      split at h
      · cases h
      · rename_i hempty
        split at h
        · cases h
        · rename_i reads hre
          split at h
          · cases h
          · rename_i reads_parent1 hre1
            split at h
            · cases h
            · rename_i reads_parent2 hre2
              split at h
              · cases h
              · rename_i combos hcmb
                split at h
                · cases h
                · rename_i pairs hmap
                  cases h
                  have hlen : l.length = combos.length :=
                    exceptMapM_ok_length _ _ _ hmap
                  have hcombo_len : combos.length = 0 ↔
                      dv_call.variant.alternate_bases = [] := by
                    cases hmode : pic.options.multi_allelic_mode with
                    | UNSPECIFIED =>
                      unfold _alt_allele_combinations at hcmb
                      rw [hmode] at hcmb
                      cases hcmb
                    | NO_HET_ALT_IMAGES =>
                      rw [alt_allele_combinations_no_het _ _ hmode] at hcmb
                      injection hcmb with hcmb
                      rw [← hcmb]
                      simp [List.length_eq_zero]
                    | ADD_HET_ALT_IMAGES =>
                      rw [alt_allele_combinations_add_het _ _ hmode] at hcmb
                      injection hcmb with hcmb
                      rw [← hcmb]
                      simp only [List.length_map, length_combinations2,
                        List.length_cons]
                      rw [Nat.choose_eq_zero_iff]
                      constructor
                      · intro hlt
                        have hzero : dv_call.variant.alternate_bases.length = 0 := by
                          omega
                        exact List.length_eq_zero.mp hzero
                      · intro hnil
                        rw [hnil]
                        simp
                  rw [← List.length_eq_zero, hlen, hcombo_len]

/-- Witness for C5: an always-invalid reference reader yields the None
sentinel, and a valid window around a variant with no alternates yields the
empty list, which the theorem equates with having no alternate alleles. -/
theorem create_pileup_images_no_window_witness :
    create_pileup_images fixPicOff fixDvC none none none none (npRandomState 0)
      = .ok none ∧
    (([] : List (List String × Image)) = [] ↔
      fixDvNoAlt.variant.alternate_bases = []) := by
  have h1 := (create_pileup_images_no_window fixPicOff fixDvC none none none none
    (npRandomState 0)).1 rfl
  have h2 := (create_pileup_images_no_window fixPic fixDvNoAlt none none none none
    (npRandomState 0)).2 [] (by rfl)
  exact ⟨h1, h2⟩
